import Mathlib

/-!
# The CLI-plugin signing client

A shallow embedding of `pkg/signature/kms/cliplugin/signer.go` and
`pkg/signature/kms/cliplugin/options.go`.

Conventions of the embedding.

* A Go pointer `*T` that may be nil is an `Option T`; the nil pointer is `none`.
* A Go `[]byte` is a `ByteSlice`: `none` is the nil slice, `some bs` a non-nil one.
* The key version is a `GoString`, a sequence of bytes that need not be valid
  UTF-8; a string literal stands for its UTF-8 bytes. The other Go strings, whose
  bytes play no part in what is proved, are Lean strings.
* A Go function returning `(*T, error)` returns `Except GoError T`.
* Errors made by other packages (`os/exec`, `encoding/json`, `time`) are values of
  `ForeignError`: those packages do not know the three sentinel errors of this
  package, so such a value never is, and never wraps, one of them.
* The library functions `json.Marshal`, `json.Unmarshal` and the constants of the
  package `common` are not part of the embedded sources; they are gathered in
  `Deps`, over which every definition and theorem is parametric.
* The JSON form of the option records of the package `common` is given on JSON
  documents as trees (`Json`), following the rules of `encoding/json` and `time` for
  pointers, nil slices, the literal `null`, invalid UTF-8 and RFC 3339 times.
-/

namespace Cliplugin

/-! ## Library types -/

/-- Go `[]byte`: `none` is the nil slice, `some bs` a non-nil slice -/
abbrev ByteSlice := Option (List Nat)

/-- An `io.Reader` handed to the plugin as standard input; `none` is the nil reader -/
abbrev Reader := Option (List Nat)

/-- A `time.Time`: the calendar year of its wall clock reading, the offset of its
zone in seconds east of UTC, and the rest of the reading (month to nanosecond).
The monotonic clock reading and the name of the zone are left out: they play no
part in `Equal`, and two times of the same reading and offset are the same instant -/
structure Time where
  year : Int
  zoneOffset : Int
  rest : Nat
deriving DecidableEq, Repr

/-- A `context.Context`: its deadline, and everything else it carries -/
structure Context where
  Deadline : Option Time
  values : Nat
deriving DecidableEq, Repr

/-- The empty context `context.TODO()` -/
def Context.TODO : Context := ⟨none, 0⟩

/-- A Go `string`: any sequence of bytes, valid UTF-8 or not -/
structure GoString where
  bytes : List Nat
deriving DecidableEq, Repr

/-- The UTF-8 bytes of the character of the given code point -/
def utf8Bytes (c : Nat) : List Nat :=
  if c < 0x80 then [c]
  else if c < 0x800 then [0xC0 + c / 64, 0x80 + c % 64]
  else if c < 0x10000 then [0xE0 + c / 4096, 0x80 + c / 64 % 64, 0x80 + c % 64]
  else [0xF0 + c / 262144, 0x80 + c / 4096 % 64, 0x80 + c / 64 % 64, 0x80 + c % 64]

/-- The Go string of a string literal: its UTF-8 bytes -/
def GoString.ofString (s : String) : GoString :=
  ⟨(s.data.map (fun c => utf8Bytes c.toNat)).flatten⟩

instance : Coe String GoString := ⟨GoString.ofString⟩

/-- Whether the byte continues a UTF-8 sequence (0x80 to 0xBF) -/
def isContinuation (b : Nat) : Bool := decide (0x80 ≤ b) && decide (b ≤ 0xBF)

/-- Whether `b1` may follow the first byte `b0` of a sequence of three or four
bytes: the ranges that rule out overlong forms, surrogates and code points above
U+10FFFF -/
def secondByteOk (b0 b1 : Nat) : Bool :=
  if b0 = 0xE0 then decide (0xA0 ≤ b1) && decide (b1 ≤ 0xBF)
  else if b0 = 0xED then decide (0x80 ≤ b1) && decide (b1 ≤ 0x9F)
  else if b0 = 0xF0 then decide (0x90 ≤ b1) && decide (b1 ≤ 0xBF)
  else if b0 = 0xF4 then decide (0x80 ≤ b1) && decide (b1 ≤ 0x8F)
  else isContinuation b1

/-- The size `utf8.DecodeRune` reports for the sequence at the head of the bytes,
and 0 where it reports an encoding error -/
def runeSize : List Nat → Nat
  | [] => 0
  | b0 :: rest =>
    if b0 < 0x80 then 1
    else if b0 < 0xC2 then 0
    else if b0 < 0xE0 then
      match rest with
      | b1 :: _ => if isContinuation b1 then 2 else 0
      | [] => 0
    else if b0 < 0xF0 then
      match rest with
      | b1 :: b2 :: _ => if secondByteOk b0 b1 && isContinuation b2 then 3 else 0
      | _ => 0
    else if b0 < 0xF5 then
      match rest with
      | b1 :: b2 :: b3 :: _ =>
        if secondByteOk b0 b1 && isContinuation b2 && isContinuation b3 then 4 else 0
      | _ => 0
    else 0

/-- The bytes `json.Marshal` writes for a string, and `json.Unmarshal` reads from
one: a valid sequence is copied (its `skip` further bytes too), and every byte
that starts no valid sequence becomes U+FFFD, the bytes EF BF BD -/
def toValidUTF8From : Nat → List Nat → List Nat
  | _, [] => []
  | skip + 1, b :: rest => b :: toValidUTF8From skip rest
  | 0, b :: rest =>
    match runeSize (b :: rest) with
    | 0 => 0xEF :: 0xBF :: 0xBD :: toValidUTF8From 0 rest
    | n + 1 => b :: toValidUTF8From n rest

/-- The string coerced to valid UTF-8, as `encoding/json` does -/
def GoString.toValidUTF8 (s : GoString) : GoString := ⟨toValidUTF8From 0 s.bytes⟩

/-- Whether the string is valid UTF-8: the coercion leaves it as it is (every
replaced byte makes the string longer) -/
def GoString.validUTF8 (s : GoString) : Bool := decide (s.toValidUTF8 = s)

/-- A non-nil `crypto.SignerOpts`: the hash it reports through `HashFunc()`, and
everything else (such as a salt length) -/
structure SignerOpts where
  HashFunc : Nat
  detail : Nat
deriving DecidableEq, Repr

/-- Equality of the results of a Go function returning `(*T, error)` is decidable -/
instance instDecidableEqExcept {ε α : Type} [DecidableEq ε] [DecidableEq α] :
    DecidableEq (Except ε α)
  | .ok a, .ok b => if h : a = b then isTrue (by rw [h]) else isFalse (by intro h2; cases h2; exact h rfl)
  | .error a, .error b =>
    if h : a = b then isTrue (by rw [h]) else isFalse (by intro h2; cases h2; exact h rfl)
  | .ok _, .error _ => isFalse (by intro h; cases h)
  | .error _, .ok _ => isFalse (by intro h; cases h)

/-! ## Errors -/

/-- The three package-level errors made with `errors.New` (signer.go, lines 35 to 39) -/
inductive Sentinel where
  | ErrorExecutingPlugin
  | ErrorResponseParse
  | ErrorPluginReturnError
deriving DecidableEq, Repr

/-- The text given to `errors.New` for each sentinel -/
def Sentinel.text : Sentinel → String
  | .ErrorExecutingPlugin => "error executing plugin program"
  | .ErrorResponseParse => "parsing plugin response"
  | .ErrorPluginReturnError => "plugin returned error"

/-- An error made outside this package. `exitCode` is `some k` when `errors.As`
finds a `commandExitError` in its chain, `k` being what `ExitCode()` returns -/
structure ForeignError where
  text : String
  exitCode : Option Int
deriving DecidableEq, Repr

/-- The errors `invokePlugin` can return -/
inductive GoError where
  | sentinel (s : Sentinel)
  | foreign (e : ForeignError)
  | wrapErr (a b : GoError)
  | wrapText (a : GoError) (msg : String)
deriving DecidableEq, Repr

/-- The method `Error()`: `wrapErr a b` is `fmt.Errorf("%w: %w", a, b)` and
`wrapText a msg` is `fmt.Errorf("%w: %s", a, msg)` -/
def GoError.Error : GoError → String
  | .sentinel s => s.text
  | .foreign e => e.text
  | .wrapErr a b => a.Error ++ ": " ++ b.Error
  | .wrapText a msg => a.Error ++ ": " ++ msg

/-- The test `errors.Is(err, target)` for a sentinel `target`: the error is the
target, or one of the errors it wraps matches it -/
def errorsIs : GoError → Sentinel → Bool
  | .sentinel s, target => decide (s = target)
  | .foreign _, _ => false
  | .wrapErr a b, target => errorsIs a target || errorsIs b target
  | .wrapText a _, target => errorsIs a target

/-- The error `ErrorExecutingPlugin` of signer.go, line 36 -/
def ErrorExecutingPlugin : GoError := .sentinel .ErrorExecutingPlugin

/-- The error `ErrorResponseParse` of signer.go, line 37 -/
def ErrorResponseParse : GoError := .sentinel .ErrorResponseParse

/-- The error `ErrorPluginReturnError` of signer.go, line 38 -/
def ErrorPluginReturnError : GoError := .sentinel .ErrorPluginReturnError

/-! ## Wire types of the package `common` -/

/-- Modelled from the spec: the record `RPCOptions` of the package `common`, whose
declaration is not among the sources; the field names and pointer types are those
used by `getRPCOptions` and by `options_test.go` -/
structure RPCOptions where
  CtxDeadline : Option Time
  KeyVersion : Option GoString
  RemoteVerification : Option Bool
deriving DecidableEq, Repr

/-- Modelled from the spec: the record `MessageOptions` of the package `common`;
`Digest` is a `*[]byte` and `HashFunc` a `*crypto.Hash` -/
structure MessageOptions where
  Digest : Option ByteSlice
  HashFunc : Option Nat
deriving DecidableEq, Repr

/-- Modelled from the spec: the record `SignOptions` of the package `common`, the
two option records nested, each behind a pointer -/
structure SignOptions where
  RPCOptions : Option RPCOptions
  MessageOptions : Option MessageOptions
deriving DecidableEq, Repr

/-- Modelled from the spec: the payload `defaultAlgorithm?: {}` of a request -/
structure DefaultAlgorithmArgs where
deriving DecidableEq, Repr

/-- Modelled from the spec: the payload `createKey?` of a request -/
structure CreateKeyArgs where
  CtxDeadline : Option Time
  Algorithm : String
deriving DecidableEq, Repr

/-- Modelled from the spec: the payload `signMessage?` of a request -/
structure SignMessageArgs where
  SignOptions : Option SignOptions
deriving DecidableEq, Repr

/-- Modelled from the spec: the tagged union `MethodArgs` of the package `common` -/
structure MethodArgs where
  MethodName : String
  DefaultAlgorithm : Option DefaultAlgorithmArgs
  CreateKey : Option CreateKeyArgs
  SignMessage : Option SignMessageArgs
deriving DecidableEq, Repr

/-- Modelled from the spec: the record `InitOptions` of the package `common`, a key
resource identifier and disambiguation hints -/
structure InitOptions where
  KeyResourceID : String
  hints : List String
deriving DecidableEq, Repr

/-- Modelled from the spec: the request envelope `PluginArgs` -/
structure PluginArgs where
  InitOptions : InitOptions
  MethodArgs : MethodArgs
deriving DecidableEq, Repr

/-- Modelled from the spec: the payload `defaultAlgorithm?` of a response -/
structure DefaultAlgorithmResp where
  DefaultAlgorithm : String
deriving DecidableEq, Repr

/-- Modelled from the spec: the payload `createKey?` of a response -/
structure CreateKeyResp where
  PublicKeyPEM : ByteSlice
deriving DecidableEq, Repr

/-- Modelled from the spec: the payload `signMessage?` of a response -/
structure SignMessageResp where
  Signature : ByteSlice
deriving DecidableEq, Repr

/-- Modelled from the spec: the response envelope `PluginResp` -/
structure PluginResp where
  ErrorMessage : String
  DefaultAlgorithm : Option DefaultAlgorithmResp
  CreateKey : Option CreateKeyResp
  SignMessage : Option SignMessageResp
deriving DecidableEq, Repr

/-- Modelled from the spec: the method names of the package `common`, as the wire
envelope of the spec lists them -/
def DefaultAlgorithmMethodName : String := "DefaultAlgorithm"

/-- Modelled from the spec: the method name for `CreateKey` -/
def CreateKeyMethodName : String := "CreateKey"

/-- Modelled from the spec: the method name for `SignMessage` -/
def SignMessageMethodName : String := "SignMessage"

/-! ## What the client takes from outside the embedded sources -/

/-- The constant and library functions the client uses and that are declared
elsewhere: the protocol version of `common`, the text `json.Marshal` gives for a
request it can encode, `json.Unmarshal` into a `PluginResp`, and
`cryptoutils.UnmarshalPEMToPublicKey` (a public key is a number here) -/
structure Deps where
  ProtocolVersion : String
  marshalText : PluginArgs → String
  unmarshalResp : List Nat → Except ForeignError PluginResp
  unmarshalPEM : ByteSlice → Except ForeignError Nat

/-- Whether the year of the time has four digits, the first check of
`Time.MarshalJSON` -/
def Time.yearInRange (t : Time) : Bool := decide (0 ≤ t.year) && decide (t.year ≤ 9999)

/-- Whether the hours of the zone offset, as RFC 3339 writes them, are below 24, the
second check of `Time.MarshalJSON`: the offset is cut to whole minutes towards
zero, and the hours are the minutes divided by 60 -/
def Time.zoneHourInRange (t : Time) : Bool := decide (t.zoneOffset.natAbs / 60 / 60 < 24)

/-- Whether `Time.MarshalJSON` accepts the time: it reports an error when the year
is outside the range 0 to 9999 or the hours of the zone offset are outside the
range 0 to 23 -/
def Time.hasJSON (t : Time) : Bool := t.yearInRange && t.zoneHourInRange

/-- The deadlines reachable from the method arguments, which `json.Marshal` encodes -/
def MethodArgs.times (a : MethodArgs) : List Time :=
  (match a.CreateKey with
    | some ck => ck.CtxDeadline.toList
    | none => []) ++
  (match a.SignMessage with
    | some sm =>
      match sm.SignOptions with
      | some so =>
        match so.RPCOptions with
        | some rpc => rpc.CtxDeadline.toList
        | none => []
      | none => []
    | none => [])

/-- The error `json.Marshal` returns for a `time.Time` whose year is out of range -/
def marshalerError : ForeignError :=
  ⟨"json: error calling MarshalJSON for type *time.Time: Time.MarshalJSON: year outside of range [0,9999]", none⟩

/-- The error `json.Marshal` returns for a `time.Time` whose zone offset is out of
range -/
def zoneMarshalerError : ForeignError :=
  ⟨"json: error calling MarshalJSON for type *time.Time: Time.MarshalJSON: timezone hour outside of range [0,23]", none⟩

/-- The error of `json.Marshal` for a time that `Time.MarshalJSON` does not accept:
the year is checked first -/
def Time.marshalError (t : Time) : ForeignError :=
  if t.yearInRange then zoneMarshalerError else marshalerError

/-- The call `json.Marshal(pluginArgs)`: strings, booleans, numbers and byte slices
always encode; the first `time.Time` that `Time.MarshalJSON` does not accept ends
the call with its error -/
def jsonMarshal (d : Deps) (a : PluginArgs) : Except ForeignError String :=
  match a.MethodArgs.times.find? (fun t => !t.hasJSON) with
  | some t => .error t.marshalError
  | none => .ok (d.marshalText a)

/-! ## signer.go -/

/-- A command made by `makeCommandFunc`, given by what its `Output()` returns:
the bytes written to standard output and the error -/
structure Command where
  Output : List Nat × Option ForeignError

/-- The type `PluginClient` (signer.go, lines 42 to 47). `makeCommandFunc` takes the
context, the standard input, the executable and the arguments; the standard error
stream it is given is always `os.Stderr` and is left out -/
structure PluginClient where
  executable : String
  initOptions : InitOptions
  makeCommandFunc : Context → Reader → String → List String → Command

/-- Lines 78 to 81 of signer.go: the error returned before standard output is
looked at, if any. `err.exitCode` is the outcome of `errors.As(err, &exitError)` -/
def executingPluginError : Option ForeignError → Option GoError
  | none => none
  | some err =>
    match err.exitCode with
    | none => some (.wrapErr ErrorExecutingPlugin (.foreign err))
    | some code =>
      if code < 1 then some (.wrapErr ErrorExecutingPlugin (.foreign err)) else none

/-- Lines 82 to 90 of signer.go: standard output is decoded into a `PluginResp`, and
a non-empty error message of the envelope becomes an error -/
def parseResponse (d : Deps) (stdout : List Nat) : Except GoError PluginResp :=
  match d.unmarshalResp stdout with
  | .error unmarshallErr => .error (.wrapErr ErrorResponseParse (.foreign unmarshallErr))
  | .ok resp =>
    if resp.ErrorMessage ≠ "" then
      .error (.wrapText ErrorPluginReturnError resp.ErrorMessage)
    else
      .ok resp

/-- The method `invokePlugin` (signer.go, lines 60 to 90) -/
def PluginClient.invokePlugin (d : Deps) (c : PluginClient) (ctx : Context) (stdin : Reader)
    (methodArgs : MethodArgs) : Except GoError PluginResp :=
  let pluginArgs : PluginArgs := ⟨c.initOptions, methodArgs⟩
  match jsonMarshal d pluginArgs with
  | .error err => .error (.foreign err)
  | .ok argsEnc =>
    let cmd := c.makeCommandFunc ctx stdin c.executable [d.ProtocolVersion, argsEnc]
    match cmd.Output with
    | (stdout, err) =>
      match executingPluginError err with
      | some execErr => .error execErr
      | none => parseResponse d stdout

/-! ## options.go -/

/-- The interface `signature.RPCOption`, as far as `getRPCOptions` calls it: each
method receives a pointer and may overwrite what it points to -/
structure RPCOption where
  ApplyContext : Context → Context
  ApplyKeyVersion : GoString → GoString
  ApplyRemoteVerification : Bool → Bool

/-- The interface `signature.MessageOption`, as far as `getMessageOptions` calls it.
The signer options are an interface value, nil (`none`) until a modifier sets them -/
structure MessageOption where
  ApplyDigest : ByteSlice → ByteSlice
  ApplyCryptoSignerOpts : Option SignerOpts → Option SignerOpts

/-- The interface `signature.SignOption`: usable both as an `RPCOption` and as a
`MessageOption` -/
structure SignOption extends RPCOption, MessageOption

/-- One round of the loop of `getRPCOptions` (options.go, lines 33 to 37) on the
context, the key version and the remote-verification flag -/
def rpcStep (st : Context × GoString × Bool) (opt : RPCOption) :
    Context × GoString × Bool :=
  (opt.ApplyContext st.1, opt.ApplyKeyVersion st.2.1, opt.ApplyRemoteVerification st.2.2)

/-- The function `getRPCOptions` (options.go, lines 30 to 49). The pointer `ctx` is
given by the context it points to, and the context left behind it is returned next
to the record: every caller in the sources passes the address of a local variable,
so the guard `ctx != nil` is taken -/
def getRPCOptions (ctx : Context) (opts : List RPCOption) : Context × RPCOptions :=
  match opts.foldl rpcStep (ctx, "", false) with
  | (ctx, keyVersion, remoteVerification) =>
    let ctxDeadline : Option Time :=
      match ctx.Deadline with
      | some deadline => some deadline
      | none => none
    (ctx, { CtxDeadline := ctxDeadline,
            KeyVersion := some keyVersion,
            RemoteVerification := some remoteVerification })

/-- One round of the loop of `getMessageOptions` (options.go, lines 55 to 58) on the
digest and the signer options -/
def messageStep (st : ByteSlice × Option SignerOpts) (opt : MessageOption) :
    ByteSlice × Option SignerOpts :=
  (opt.ApplyDigest st.1, opt.ApplyCryptoSignerOpts st.2)

/-- The function `getMessageOptions` (options.go, lines 52 to 68) -/
def getMessageOptions (opts : List MessageOption) : MessageOptions :=
  match opts.foldl messageStep (none, none) with
  | (digest, signerOpts) =>
    let hashFunc : Option Nat :=
      match signerOpts with
      | some so => some so.HashFunc
      | none => none
    { Digest := some digest, HashFunc := hashFunc }

/-- The function `getSignOptions` (options.go, lines 71 to 84) -/
def getSignOptions (ctx : Context) (opts : List SignOption) : Context × SignOptions :=
  let rpcOpts : List RPCOption := opts.foldl (fun acc opt => acc ++ [opt.toRPCOption]) []
  let messageOpts : List MessageOption :=
    opts.foldl (fun acc opt => acc ++ [opt.toMessageOption]) []
  match getRPCOptions ctx rpcOpts with
  | (ctx, rpc) =>
    (ctx, { RPCOptions := some rpc, MessageOptions := some (getMessageOptions messageOpts) })

/-! ## The operations of signer.go -/

/-- How a call of an operation ends: it returns a value and a nil error, it returns
an error, it dereferences a nil pointer, or it ends the process through `log.Fatal` -/
inductive Outcome (α : Type) where
  | ok (a : α)
  | error (err : GoError)
  | nilDeref
  | fatal (err : GoError)
deriving DecidableEq, Repr

/-- One call of `invokePlugin`: the context, standard input and method arguments
it was handed -/
structure Invocation where
  ctx : Context
  stdin : Reader
  methodArgs : MethodArgs
deriving DecidableEq, Repr

/-- A call of `invokePlugin` from an operation, entered at the end of the record of
the calls made so far -/
def PluginClient.call (d : Deps) (c : PluginClient) (ctx : Context) (stdin : Reader)
    (methodArgs : MethodArgs) (calls : List Invocation) :
    Except GoError PluginResp × List Invocation :=
  (c.invokePlugin d ctx stdin methodArgs, calls ++ [⟨ctx, stdin, methodArgs⟩])

/-- The method `DefaultAlgorithm` (signer.go, lines 95 to 105) -/
def PluginClient.DefaultAlgorithm (d : Deps) (c : PluginClient) (calls : List Invocation) :
    Outcome String × List Invocation :=
  let args : MethodArgs :=
    { MethodName := DefaultAlgorithmMethodName,
      DefaultAlgorithm := some {},
      CreateKey := none,
      SignMessage := none }
  match c.call d Context.TODO none args calls with
  | (.error err, calls) => (.fatal err, calls)
  | (.ok resp, calls) =>
    match resp.DefaultAlgorithm with
    | none => (.nilDeref, calls)
    | some payload => (.ok payload.DefaultAlgorithm, calls)

/-- The method `CreateKey` (signer.go, lines 108 to 127) -/
def PluginClient.CreateKey (d : Deps) (c : PluginClient) (ctx : Context) (algorithm : String)
    (calls : List Invocation) : Outcome Nat × List Invocation :=
  let createKey : CreateKeyArgs := { CtxDeadline := none, Algorithm := algorithm }
  let createKey : CreateKeyArgs :=
    match ctx.Deadline with
    | some deadline => { createKey with CtxDeadline := some deadline }
    | none => createKey
  let args : MethodArgs :=
    { MethodName := CreateKeyMethodName,
      DefaultAlgorithm := none,
      CreateKey := some createKey,
      SignMessage := none }
  match c.call d ctx none args calls with
  | (.error err, calls) => (.error err, calls)
  | (.ok resp, calls) =>
    match resp.CreateKey with
    | none => (.nilDeref, calls)
    | some payload =>
      match d.unmarshalPEM payload.PublicKeyPEM with
      | .error err => (.error (.foreign err), calls)
      | .ok publicKey => (.ok publicKey, calls)

/-- The method `SignMessage` (signer.go, lines 130 to 147) -/
def PluginClient.SignMessage (d : Deps) (c : PluginClient) (message : Reader)
    (opts : List SignOption) (calls : List Invocation) : Outcome ByteSlice × List Invocation :=
  let ctx := Context.TODO
  match getSignOptions ctx opts with
  | (ctx, signOptions) =>
    let args : MethodArgs :=
      { MethodName := SignMessageMethodName,
        DefaultAlgorithm := none,
        CreateKey := none,
        SignMessage := some { SignOptions := some signOptions } }
    match c.call d ctx message args calls with
    | (.error err, calls) => (.error err, calls)
    | (.ok resp, calls) =>
      match resp.SignMessage with
      | none => (.nilDeref, calls)
      | some payload => (.ok payload.Signature, calls)

/-! ## Modifiers -/

/-- A modifier that leaves everything as it is -/
def noOp : SignOption :=
  { ApplyContext := fun ctx => ctx,
    ApplyKeyVersion := fun v => v,
    ApplyRemoteVerification := fun b => b,
    ApplyDigest := fun dg => dg,
    ApplyCryptoSignerOpts := fun so => so }

/-- Modelled from the spec: the modifier that supplies a context -/
def WithContext (ctx : Context) : SignOption := { noOp with ApplyContext := fun _ => ctx }

/-- Modelled from the spec: the modifier that sets the key version -/
def WithKeyVersion (v : GoString) : SignOption := { noOp with ApplyKeyVersion := fun _ => v }

/-- Modelled from the spec: the modifier that sets the remote-verification flag -/
def WithRemoteVerification (b : Bool) : SignOption :=
  { noOp with ApplyRemoteVerification := fun _ => b }

/-- Modelled from the spec: the modifier that sets the message digest -/
def WithDigest (dg : List Nat) : SignOption := { noOp with ApplyDigest := fun _ => some dg }

/-- Modelled from the spec: the modifier that sets the signer-options handle -/
def WithCryptoSignerOpts (so : SignerOpts) : SignOption :=
  { noOp with ApplyCryptoSignerOpts := fun _ => some so }

/-- What it is for a modifier to set the key version to `v` -/
def SetsKeyVersion (opt : RPCOption) (v : GoString) : Prop := ∀ cur, opt.ApplyKeyVersion cur = v

/-- What it is for a modifier to leave the key version alone -/
def KeepsKeyVersion (opt : RPCOption) : Prop := ∀ cur, opt.ApplyKeyVersion cur = cur

/-- What it is for a modifier to set the remote-verification flag to `b` -/
def SetsRemoteVerification (opt : RPCOption) (b : Bool) : Prop :=
  ∀ cur, opt.ApplyRemoteVerification cur = b

/-- What it is for a modifier to leave the remote-verification flag alone -/
def KeepsRemoteVerification (opt : RPCOption) : Prop := ∀ cur, opt.ApplyRemoteVerification cur = cur

/-- What it is for a modifier to supply the context `ctx` -/
def SuppliesContext (opt : RPCOption) (ctx : Context) : Prop := ∀ cur, opt.ApplyContext cur = ctx

/-- What it is for a modifier to leave the context alone -/
def KeepsContext (opt : RPCOption) : Prop := ∀ cur, opt.ApplyContext cur = cur

/-- What it is for a modifier to set the signer-options handle to `so` -/
def SetsSignerOpts (opt : MessageOption) (so : SignerOpts) : Prop :=
  ∀ cur, opt.ApplyCryptoSignerOpts cur = some so

/-- What it is for a modifier to leave the signer-options handle alone -/
def KeepsSignerOpts (opt : MessageOption) : Prop := ∀ cur, opt.ApplyCryptoSignerOpts cur = cur

/-- What it is for a modifier to leave the digest alone -/
def KeepsDigest (opt : MessageOption) : Prop := ∀ cur, opt.ApplyDigest cur = cur

/-! ## Sample values -/

/-- The bytes of a text -/
def bytesOf (s : String) : List Nat := s.data.map Char.toNat

/-- The output of a plugin that reports success without a payload -/
def stdoutEmpty : List Nat := bytesOf "\x7b\x7d"

/-- The output of a plugin that returns the signature 3, 2, 1 -/
def stdoutSigned : List Nat :=
  bytesOf "\x7b\"signMessage\":\x7b\"signature\":\"AwIB\"\x7d\x7d"

/-- The output of a plugin that declines the operation but fills in a payload -/
def stdoutDeclined : List Nat :=
  bytesOf "\x7b\"errorMessage\":\"no such key\",\"signMessage\":\x7b\"signature\":\"AwIB\"\x7d\x7d"

/-- The envelope without error message and without payload -/
def respEmpty : PluginResp :=
  { ErrorMessage := "", DefaultAlgorithm := none, CreateKey := none, SignMessage := none }

/-- The envelope carrying the signature 3, 2, 1 -/
def respSigned : PluginResp := { respEmpty with SignMessage := some ⟨some [3, 2, 1]⟩ }

/-- The envelope carrying an error message next to a payload -/
def respDeclined : PluginResp := { respSigned with ErrorMessage := "no such key" }

/-- The error `json.Unmarshal` returns on the empty input -/
def syntaxError : ForeignError := ⟨"unexpected end of JSON input", none⟩

/-- A table standing for `json.Unmarshal` on the sample outputs; every other input
is taken to be no JSON -/
def sampleUnmarshal (stdout : List Nat) : Except ForeignError PluginResp :=
  if stdout = stdoutEmpty then .ok respEmpty
  else if stdout = stdoutSigned then .ok respSigned
  else if stdout = stdoutDeclined then .ok respDeclined
  else .error syntaxError

/-- Sample dependencies: the text of a request is not looked at by the samples -/
def sampleDeps : Deps :=
  { ProtocolVersion := "1",
    marshalText := fun a => a.MethodArgs.MethodName,
    unmarshalResp := sampleUnmarshal,
    unmarshalPEM := fun _ => .ok 0 }

/-- A client whose command always returns the given output and error -/
def clientReturning (stdout : List Nat) (err : Option ForeignError) : PluginClient :=
  { executable := "sigstore-kms-sample",
    initOptions := ⟨"sample://key", []⟩,
    makeCommandFunc := fun _ _ _ _ => ⟨(stdout, err)⟩ }

/-- The error of a process that exited with the given code -/
def exitError (code : Int) : ForeignError := ⟨"exit status", some code⟩

/-- The error of a process that could not be started -/
def startError : ForeignError := ⟨"executable file not found in $PATH", none⟩

/-- The arguments of a `DefaultAlgorithm` call -/
def sampleArgs : MethodArgs :=
  { MethodName := DefaultAlgorithmMethodName, DefaultAlgorithm := some {},
    CreateKey := none, SignMessage := none }

/-- The arguments of a `CreateKey` call whose deadline lies in the year 10000 -/
def farArgs : MethodArgs :=
  { MethodName := CreateKeyMethodName, DefaultAlgorithm := none,
    CreateKey := some { CtxDeadline := some { year := 10000, zoneOffset := 0, rest := 0 },
                         Algorithm := "ecdsa-sha2-256-nistp256" },
    SignMessage := none }

/-- A deadline in the year 2025 -/
def sampleDeadline : Time := { year := 2025, zoneOffset := 0, rest := 4010247 }

/-- A context carrying the sample deadline -/
def ctxWithDeadline : Context := ⟨some sampleDeadline, 1⟩

/-- A context without deadline, other than `context.TODO()` -/
def ctxPlain : Context := ⟨none, 2⟩

/-- Signer options naming the hash 17 -/
def sampleSignerOpts : SignerOpts := ⟨17, 0⟩

/-- The modifiers of the end-to-end scenario: a digest, a hash and a deadline -/
def sampleSignOpts : List SignOption :=
  [WithDigest [9, 8, 7], WithCryptoSignerOpts sampleSignerOpts, WithContext ctxWithDeadline]

/-! ## The JSON form of the option records -/

/-- A JSON document, as `encoding/json` writes and reads it. A JSON string is
kept as what its text stands for: a string, a time in RFC 3339 form (a wall clock
reading and a zone offset), or bytes in base64 form. The text of the document is
left out -/
inductive Json where
  | null
  | bool (b : Bool)
  | num (n : Nat)
  | str (s : GoString)
  | time (t : Time)
  | bytes (bs : List Nat)
  | obj (members : List (String × Json))

/-- The error `json.Unmarshal` returns when a member does not fit the type of its field -/
def typeError : ForeignError := ⟨"json: cannot unmarshal value into Go struct field", none⟩

/-- The zone offset RFC 3339 writes for the time, in seconds: the offset cut to
whole minutes, towards zero -/
def Time.writtenOffset (t : Time) : Int :=
  if 0 ≤ t.zoneOffset then ((t.zoneOffset.natAbs / 60 * 60 : Nat) : Int)
  else -((t.zoneOffset.natAbs / 60 * 60 : Nat) : Int)

/-- The time a reader of the RFC 3339 form of `t` gets: the same wall clock
reading, at the offset that was written -/
def Time.written (t : Time) : Time := { t with zoneOffset := t.writtenOffset }

/-- Whether the time has a JSON form that reads back as the same instant: the form
exists and the zone offset is a whole number of minutes -/
def Time.lossless (t : Time) : Bool := t.hasJSON && decide (t.written = t)

/-- The way `json.Unmarshal` fills a struct: the members of the object are read in
order, each one by `set`, and the first error ends the call -/
def unmarshalMembers {α : Type} (set : α → String × Json → Except ForeignError α) :
    α → List (String × Json) → Except ForeignError α
  | r, [] => .ok r
  | r, m :: rest =>
    match set r m with
    | .error err => .error err
    | .ok r2 => unmarshalMembers set r2 rest

/-- The record of a freshly declared `RPCOptions` variable -/
def RPCOptions.zero : RPCOptions :=
  { CtxDeadline := none, KeyVersion := none, RemoteVerification := none }

/-- The record of a freshly declared `MessageOptions` variable -/
def MessageOptions.zero : MessageOptions := { Digest := none, HashFunc := none }

/-- The record of a freshly declared `SignOptions` variable -/
def SignOptions.zero : SignOptions := { RPCOptions := none, MessageOptions := none }

/-- The members `json.Marshal` writes for the key version and the flag of an
`RPCOptions`: a nil pointer is left out, and a key version is written coerced to
valid UTF-8 -/
def rpcMembers (r : RPCOptions) : List (String × Json) :=
  (match r.KeyVersion with
    | some v => [("keyVersion", Json.str v.toValidUTF8)]
    | none => []) ++
  (match r.RemoteVerification with
    | some b => [("remoteVerification", Json.bool b)]
    | none => [])

/-- Modelled from the spec: the JSON form of `RPCOptions`, whose declaration in the
package `common` (with its field tags) is not among the sources. Each field is a
pointer that is left out of the object when nil, so that an absent field and a zero
value differ; a deadline is written by `Time.MarshalJSON`, in RFC 3339 form or
with an error -/
def marshalRPCOptions (r : RPCOptions) : Except ForeignError Json :=
  match r.CtxDeadline with
  | some t =>
    if t.hasJSON then .ok (.obj (("ctxDeadline", Json.time t.written) :: rpcMembers r))
    else .error t.marshalError
  | none => .ok (.obj (rpcMembers r))

/-- Modelled from the spec: what `json.Unmarshal` does with one member of an object
read into an `RPCOptions`. The literal `null` sets the pointer to nil, a value of
the type of the field is stored behind a fresh pointer, any other value is a type
error, and a member of another name is skipped. A time is read by
`Time.UnmarshalJSON`, which accepts what `Time.MarshalJSON` can write, and a string
is read coerced to valid UTF-8. Names are compared as they are; the library also
accepts a name that differs in case only, which no document written by
`json.Marshal` for these records has -/
def setRPCMember (r : RPCOptions) (m : String × Json) : Except ForeignError RPCOptions :=
  if m.1 = "ctxDeadline" then
    match m.2 with
    | .null => .ok { r with CtxDeadline := none }
    | .time t =>
      if t.hasJSON then .ok { r with CtxDeadline := some t.written } else .error typeError
    | _ => .error typeError
  else if m.1 = "keyVersion" then
    match m.2 with
    | .null => .ok { r with KeyVersion := none }
    | .str v => .ok { r with KeyVersion := some v.toValidUTF8 }
    | _ => .error typeError
  else if m.1 = "remoteVerification" then
    match m.2 with
    | .null => .ok { r with RemoteVerification := none }
    | .bool b => .ok { r with RemoteVerification := some b }
    | _ => .error typeError
  else .ok r

/-- Modelled from the spec: `json.Unmarshal` of a document into an `RPCOptions` that
holds `r` already; `null` leaves the record as it is -/
def unmarshalRPCOptionsInto (r : RPCOptions) : Json → Except ForeignError RPCOptions
  | .obj members => unmarshalMembers setRPCMember r members
  | .null => .ok r
  | _ => .error typeError

/-- Modelled from the spec: `json.Unmarshal(encoded, &decodedObj)` for a freshly
declared `RPCOptions`, as in `TestRPCOptions` -/
def unmarshalRPCOptions (j : Json) : Except ForeignError RPCOptions :=
  unmarshalRPCOptionsInto RPCOptions.zero j

/-- Modelled from the spec: the JSON form of `MessageOptions`. A nil pointer is left
out; behind a non-nil `Digest` pointer a nil slice is written as `null` and any
other slice as base64; the hash is written as a number -/
def marshalMessageOptions (m : MessageOptions) : Except ForeignError Json :=
  .ok (.obj (
    (match m.Digest with
      | some (some bs) => [("digest", Json.bytes bs)]
      | some none => [("digest", Json.null)]
      | none => []) ++
    (match m.HashFunc with
      | some h => [("hashFunc", Json.num h)]
      | none => [])))

/-- Modelled from the spec: what `json.Unmarshal` does with one member of an object
read into a `MessageOptions`. A `crypto.Hash` is a `uint`: a number that does not
fit in 64 bits is a type error -/
def setMessageMember (r : MessageOptions) (m : String × Json) :
    Except ForeignError MessageOptions :=
  if m.1 = "digest" then
    match m.2 with
    | .null => .ok { r with Digest := none }
    | .bytes bs => .ok { r with Digest := some (some bs) }
    | _ => .error typeError
  else if m.1 = "hashFunc" then
    match m.2 with
    | .null => .ok { r with HashFunc := none }
    | .num h => if h < 2 ^ 64 then .ok { r with HashFunc := some h } else .error typeError
    | _ => .error typeError
  else .ok r

/-- Modelled from the spec: `json.Unmarshal` of a document into a `MessageOptions`
that holds `r` already -/
def unmarshalMessageOptionsInto (r : MessageOptions) : Json → Except ForeignError MessageOptions
  | .obj members => unmarshalMembers setMessageMember r members
  | .null => .ok r
  | _ => .error typeError

/-- Modelled from the spec: `json.Unmarshal(encoded, &decodedObj)` for a freshly
declared `MessageOptions`, as in `TestMessageOptions` -/
def unmarshalMessageOptions (j : Json) : Except ForeignError MessageOptions :=
  unmarshalMessageOptionsInto MessageOptions.zero j

/-- Modelled from the spec: the JSON form of `SignOptions`, the two records nested
under a member each; a nil pointer to a record is written as `null` -/
def marshalSignOptions (s : SignOptions) : Except ForeignError Json :=
  match (match s.RPCOptions with
    | some r => marshalRPCOptions r
    | none => .ok Json.null) with
  | .error err => .error err
  | .ok rpc =>
    match (match s.MessageOptions with
      | some m => marshalMessageOptions m
      | none => .ok Json.null) with
    | .error err => .error err
    | .ok msg => .ok (.obj [("rpcOptions", rpc), ("messageOptions", msg)])

/-- Modelled from the spec: what `json.Unmarshal` does with one member of an object
read into a `SignOptions`: `null` sets the pointer to nil, any other value is read
into the record behind the pointer, a fresh one if the pointer is nil -/
def setSignMember (s : SignOptions) (m : String × Json) : Except ForeignError SignOptions :=
  if m.1 = "rpcOptions" then
    match m.2 with
    | .null => .ok { s with RPCOptions := none }
    | v =>
      match unmarshalRPCOptionsInto (s.RPCOptions.getD RPCOptions.zero) v with
      | .error err => .error err
      | .ok r => .ok { s with RPCOptions := some r }
  else if m.1 = "messageOptions" then
    match m.2 with
    | .null => .ok { s with MessageOptions := none }
    | v =>
      match unmarshalMessageOptionsInto (s.MessageOptions.getD MessageOptions.zero) v with
      | .error err => .error err
      | .ok r => .ok { s with MessageOptions := some r }
  else .ok s

/-- Modelled from the spec: `json.Unmarshal(encoded, &decodedObj)` for a freshly
declared `SignOptions`, as in `TestSignOptions` -/
def unmarshalSignOptions : Json → Except ForeignError SignOptions
  | .obj members => unmarshalMembers setSignMember SignOptions.zero members
  | .null => .ok SignOptions.zero
  | _ => .error typeError

/-- The round trip of `TestRPCOptions`: encode, then decode what was encoded -/
def roundTripRPCOptions (r : RPCOptions) : Except ForeignError RPCOptions :=
  match marshalRPCOptions r with
  | .error err => .error err
  | .ok encoded => unmarshalRPCOptions encoded

/-- The round trip of `TestMessageOptions` -/
def roundTripMessageOptions (m : MessageOptions) : Except ForeignError MessageOptions :=
  match marshalMessageOptions m with
  | .error err => .error err
  | .ok encoded => unmarshalMessageOptions encoded

/-- The round trip of `TestSignOptions` -/
def roundTripSignOptions (s : SignOptions) : Except ForeignError SignOptions :=
  match marshalSignOptions s with
  | .error err => .error err
  | .ok encoded => unmarshalSignOptions encoded

/-- Whether the deadline of the record, if present, reads back as the same instant,
and the key version, if present, is valid UTF-8 -/
def RPCOptions.lossless (r : RPCOptions) : Bool :=
  (match r.CtxDeadline with
    | some t => t.lossless
    | none => true) &&
  (match r.KeyVersion with
    | some v => v.validUTF8
    | none => true)

/-- Whether the digest of the record, if present, is a slice other than nil, and
the hash, if present, fits the 64 bits of a `crypto.Hash` -/
def MessageOptions.lossless (m : MessageOptions) : Bool :=
  (match m.Digest with
    | some none => false
    | _ => true) &&
  (match m.HashFunc with
    | some h => decide (h < 2 ^ 64)
    | none => true)

/-- Whether both conditions hold for the records nested in a `SignOptions` -/
def SignOptions.lossless (s : SignOptions) : Bool :=
  (match s.RPCOptions with
    | some r => r.lossless
    | none => true) &&
  (match s.MessageOptions with
    | some m => m.lossless
    | none => true)

/-- A deadline in a zone one hour and one second east of UTC -/
def oddZoneDeadline : Time := { year := 2025, zoneOffset := 3601, rest := 4010247 }

/-- A deadline in a zone 24 hours east of UTC -/
def farZoneDeadline : Time := { year := 2025, zoneOffset := 86400, rest := 4010247 }

/-- A deadline in the year 10000 -/
def farDeadline : Time := { year := 10000, zoneOffset := 0, rest := 0 }

/-- A key version that is not valid UTF-8: the bytes 61 FF 62 -/
def oddKeyVersion : GoString := ⟨[0x61, 0xFF, 0x62]⟩

/-- The value `testRPCOptions` of options_test.go -/
def testRPCOptions : RPCOptions :=
  { CtxDeadline := some sampleDeadline, KeyVersion := some "anyKeyVersion",
    RemoteVerification := some true }

/-- The value `testMessageOptions` of options_test.go; 17 is `crypto.BLAKE2b_256` -/
def testMessageOptions : MessageOptions :=
  { Digest := some (some (bytesOf "anyDigest")), HashFunc := some 17 }

/-- The value `testSignOptions` of options_test.go -/
def testSignOptions : SignOptions :=
  { RPCOptions := some testRPCOptions, MessageOptions := some testMessageOptions }

/-- The names of the methods whose payload is populated in the arguments -/
def MethodArgs.populated (a : MethodArgs) : List String :=
  (if a.DefaultAlgorithm.isSome then [DefaultAlgorithmMethodName] else []) ++
  (if a.CreateKey.isSome then [CreateKeyMethodName] else []) ++
  (if a.SignMessage.isSome then [SignMessageMethodName] else [])

/-! ## Lemmas on `invokePlugin` -/

/-- Once the request is encoded, `invokePlugin` is decided by what `Output()` returns -/
theorem invokePlugin_of_output (d : Deps) (c : PluginClient) (ctx : Context) (stdin : Reader)
    (methodArgs : MethodArgs) (argsEnc : String) (stdout : List Nat) (err : Option ForeignError)
    (hargs : jsonMarshal d ⟨c.initOptions, methodArgs⟩ = .ok argsEnc)
    (hout : (c.makeCommandFunc ctx stdin c.executable [d.ProtocolVersion, argsEnc]).Output
      = (stdout, err)) :
    c.invokePlugin d ctx stdin methodArgs =
      match executingPluginError err with
      | some execErr => .error execErr
      | none => parseResponse d stdout := by
  simp only [PluginClient.invokePlugin, hargs, hout]

/-- An exit error with a positive exit code is not an execution error -/
theorem executingPluginError_of_positive (err : ForeignError) (code : Int)
    (hcode : err.exitCode = some code) (hpos : 1 ≤ code) :
    executingPluginError (some err) = none := by
  have h : ¬ code < 1 := by omega
  simp [executingPluginError, hcode, h]

/-- An error without exit code, or with an exit code below 1, is an execution error -/
theorem executingPluginError_of_fatal (err : ForeignError)
    (hfatal : ∀ code, err.exitCode = some code → code < 1) :
    executingPluginError (some err) = some (.wrapErr ErrorExecutingPlugin (.foreign err)) := by
  cases hc : err.exitCode with
  | none => simp [executingPluginError, hc]
  | some code => simp [executingPluginError, hc, hfatal code hc]

/-- Every execution error wraps `ErrorExecutingPlugin` around a foreign error -/
theorem executingPluginError_shape (err : Option ForeignError) (e : GoError)
    (h : executingPluginError err = some e) :
    ∃ fe, e = .wrapErr ErrorExecutingPlugin (.foreign fe) := by
  cases err with
  | none => simp [executingPluginError] at h
  | some fe =>
    refine ⟨fe, ?_⟩
    simp only [executingPluginError] at h
    split at h
    · exact (Option.some.inj h).symm
    · split at h
      · exact (Option.some.inj h).symm
      · cases h

/-- The process ran to completion: `Output()` returned no error, or an exit error
with a positive exit code -/
theorem executingPluginError_of_completed (err : Option ForeignError)
    (hran : err = none ∨ ∃ e code, err = some e ∧ e.exitCode = some code ∧ 1 ≤ code) :
    executingPluginError err = none := by
  rcases hran with h | ⟨e, code, h, hcode, hpos⟩
  · subst h; rfl
  · subst h; exact executingPluginError_of_positive e code hcode hpos

/-- The errors of `parseResponse` match exactly one sentinel -/
theorem parseResponse_error_kind (d : Deps) (stdout : List Nat) (e : GoError)
    (h : parseResponse d stdout = .error e) :
    ([Sentinel.ErrorExecutingPlugin, Sentinel.ErrorResponseParse,
      Sentinel.ErrorPluginReturnError].filter (fun s => errorsIs e s)).length = 1 := by
  unfold parseResponse at h
  cases hd : d.unmarshalResp stdout with
  | error ue =>
    rw [hd] at h
    simp only [Except.error.injEq] at h
    subst h
    rfl
  | ok resp =>
    rw [hd] at h
    by_cases hm : resp.ErrorMessage = ""
    · simp [hm] at h
    · simp only [ne_eq, hm, not_false_eq_true, if_true, Except.error.injEq] at h
      subst h
      rfl

/-- No error of `parseResponse` matches `ErrorExecutingPlugin` -/
theorem parseResponse_not_executing (d : Deps) (stdout : List Nat) (e : GoError)
    (h : parseResponse d stdout = .error e) : errorsIs e .ErrorExecutingPlugin = false := by
  unfold parseResponse at h
  cases hd : d.unmarshalResp stdout with
  | error ue =>
    rw [hd] at h
    simp only [Except.error.injEq] at h
    subst h
    rfl
  | ok resp =>
    rw [hd] at h
    by_cases hm : resp.ErrorMessage = ""
    · simp [hm] at h
    · simp only [ne_eq, hm, not_false_eq_true, if_true, Except.error.injEq] at h
      subst h
      rfl

/-! ## Claims on `invokePlugin` -/

/-- C1. Exit-code insensitivity: when `Output()` returns an exit error with an exit
code of at least 1 together with bytes that decode to a `PluginResp` with an empty
error message, `invokePlugin` returns that response and no error, the same result
as for a client whose `Output()` returns the same bytes with no error at all. -/
theorem invokePlugin_exit_code_insensitive (d : Deps) (c c0 : PluginClient) (ctx : Context)
    (stdin : Reader) (methodArgs : MethodArgs) (argsEnc : String) (stdout : List Nat)
    (err : ForeignError) (code : Int) (resp : PluginResp)
    (hargs : jsonMarshal d ⟨c.initOptions, methodArgs⟩ = .ok argsEnc)
    (hout : (c.makeCommandFunc ctx stdin c.executable [d.ProtocolVersion, argsEnc]).Output
      = (stdout, some err))
    (hcode : err.exitCode = some code) (hpos : 1 ≤ code)
    (hinit : c0.initOptions = c.initOptions)
    (hout0 : (c0.makeCommandFunc ctx stdin c0.executable [d.ProtocolVersion, argsEnc]).Output
      = (stdout, none))
    (hdec : d.unmarshalResp stdout = .ok resp) (hmsg : resp.ErrorMessage = "") :
    c.invokePlugin d ctx stdin methodArgs = .ok resp ∧
    c0.invokePlugin d ctx stdin methodArgs = c.invokePlugin d ctx stdin methodArgs := by
  have hargs0 : jsonMarshal d ⟨c0.initOptions, methodArgs⟩ = .ok argsEnc := by rw [hinit]; exact hargs
  rw [invokePlugin_of_output d c ctx stdin methodArgs argsEnc stdout (some err) hargs hout,
    invokePlugin_of_output d c0 ctx stdin methodArgs argsEnc stdout none hargs0 hout0,
    executingPluginError_of_positive err code hcode hpos]
  constructor
  · simp [parseResponse, hdec, hmsg]
  · rfl

/-- Witness of C1: a process that exits with code 1 and writes a signed envelope. -/
theorem invokePlugin_exit_code_insensitive_witness :
    (clientReturning stdoutSigned (some (exitError 1))).invokePlugin sampleDeps Context.TODO none
        sampleArgs = .ok respSigned ∧
    (clientReturning stdoutSigned none).invokePlugin sampleDeps Context.TODO none sampleArgs =
      (clientReturning stdoutSigned (some (exitError 1))).invokePlugin sampleDeps Context.TODO none
        sampleArgs :=
  invokePlugin_exit_code_insensitive sampleDeps (clientReturning stdoutSigned (some (exitError 1)))
    (clientReturning stdoutSigned none) Context.TODO none sampleArgs "DefaultAlgorithm"
    stdoutSigned (exitError 1) 1 respSigned (by decide) rfl rfl (by decide) rfl rfl (by decide)
    rfl

/-- Counterexample to C2 as stated: an exit error whose exit code is 0, which is
neither a non-exit error nor the code -1, still ends `invokePlugin` with an execution
error, although standard output holds an envelope that decodes to a success. -/
theorem invokePlugin_exit_code_zero_is_fatal :
    (exitError 0).exitCode = some 0 ∧ (0 : Int) ≠ -1 ∧
    sampleDeps.unmarshalResp stdoutSigned = .ok respSigned ∧
    (clientReturning stdoutSigned (some (exitError 0))).invokePlugin sampleDeps Context.TODO none
        sampleArgs = .error (.wrapErr ErrorExecutingPlugin (.foreign (exitError 0))) ∧
    (clientReturning stdoutSigned (some (exitError 0))).invokePlugin sampleDeps Context.TODO none
        sampleArgs ≠ parseResponse sampleDeps stdoutSigned := by
  decide

/-- C2, amended. Once the request is encoded, `invokePlugin` fails with an execution
error wrapping `ErrorExecutingPlugin`, whatever standard output holds, exactly when
`Output()` returned an error that is not an exit error or an exit error whose exit
code is below 1 (0, the code -1, or any other such code); for every other outcome
(no error, or an exit error with an exit code of at least 1) the result is that of
parsing standard output. -/
theorem invokePlugin_exec_failure (d : Deps) (c : PluginClient) (ctx : Context)
    (stdin : Reader) (methodArgs : MethodArgs) (argsEnc : String) (stdout : List Nat)
    (err : Option ForeignError)
    (hargs : jsonMarshal d ⟨c.initOptions, methodArgs⟩ = .ok argsEnc)
    (hout : (c.makeCommandFunc ctx stdin c.executable [d.ProtocolVersion, argsEnc]).Output
      = (stdout, err)) :
    (∀ e, err = some e → (∀ code, e.exitCode = some code → code < 1) →
      c.invokePlugin d ctx stdin methodArgs = .error (.wrapErr ErrorExecutingPlugin (.foreign e)) ∧
      errorsIs (.wrapErr ErrorExecutingPlugin (.foreign e)) .ErrorExecutingPlugin = true) ∧
    ((err = none ∨ ∃ e code, err = some e ∧ e.exitCode = some code ∧ 1 ≤ code) →
      c.invokePlugin d ctx stdin methodArgs = parseResponse d stdout ∧
      ∀ e, c.invokePlugin d ctx stdin methodArgs = .error e →
        errorsIs e .ErrorExecutingPlugin = false) := by
  rw [invokePlugin_of_output d c ctx stdin methodArgs argsEnc stdout err hargs hout]
  constructor
  · intro e he hfatal
    subst he
    rw [executingPluginError_of_fatal e hfatal]
    exact ⟨rfl, by simp [errorsIs, ErrorExecutingPlugin]⟩
  · intro hran
    rw [executingPluginError_of_completed err hran]
    exact ⟨rfl, fun e he => parseResponse_not_executing d stdout e he⟩

/-- Witness of C2, amended: an executable that cannot be started, and a process
that exits with code 2. -/
theorem invokePlugin_exec_failure_witness :
    (clientReturning stdoutSigned (some startError)).invokePlugin sampleDeps Context.TODO none
        sampleArgs = .error (.wrapErr ErrorExecutingPlugin (.foreign startError)) ∧
    (clientReturning stdoutSigned (some (exitError 2))).invokePlugin sampleDeps Context.TODO none
        sampleArgs = parseResponse sampleDeps stdoutSigned :=
  ⟨((invokePlugin_exec_failure sampleDeps (clientReturning stdoutSigned (some startError))
      Context.TODO none sampleArgs "DefaultAlgorithm" stdoutSigned (some startError)
      (by decide) rfl).1 startError rfl (by decide)).1,
   ((invokePlugin_exec_failure sampleDeps (clientReturning stdoutSigned (some (exitError 2)))
      Context.TODO none sampleArgs "DefaultAlgorithm" stdoutSigned (some (exitError 2))
      (by decide) rfl).2 (Or.inr ⟨exitError 2, 2, rfl, rfl, by decide⟩)).1⟩

/-- C3. Response-parse classification: when the process ran to completion (no
error, or an exit error with an exit code of at least 1) and standard output does
not decode as a `PluginResp`, `invokePlugin` returns no response and an error that
wraps `ErrorResponseParse` and does not match `ErrorExecutingPlugin`. -/
theorem invokePlugin_response_parse_error (d : Deps) (c : PluginClient) (ctx : Context)
    (stdin : Reader) (methodArgs : MethodArgs) (argsEnc : String) (stdout : List Nat)
    (err : Option ForeignError) (unmarshallErr : ForeignError)
    (hargs : jsonMarshal d ⟨c.initOptions, methodArgs⟩ = .ok argsEnc)
    (hout : (c.makeCommandFunc ctx stdin c.executable [d.ProtocolVersion, argsEnc]).Output
      = (stdout, err))
    (hran : err = none ∨ ∃ e code, err = some e ∧ e.exitCode = some code ∧ 1 ≤ code)
    (hdec : d.unmarshalResp stdout = .error unmarshallErr) :
    c.invokePlugin d ctx stdin methodArgs
      = .error (.wrapErr ErrorResponseParse (.foreign unmarshallErr)) ∧
    errorsIs (.wrapErr ErrorResponseParse (.foreign unmarshallErr)) .ErrorResponseParse = true ∧
    errorsIs (.wrapErr ErrorResponseParse (.foreign unmarshallErr)) .ErrorExecutingPlugin
      = false := by
  rw [invokePlugin_of_output d c ctx stdin methodArgs argsEnc stdout err hargs hout,
    executingPluginError_of_completed err hran]
  refine ⟨?_, rfl, rfl⟩
  simp only [parseResponse, hdec]

/-- Witness of C3: a process that exits with code 3 and writes nothing. -/
theorem invokePlugin_response_parse_error_witness :
    (clientReturning [] (some (exitError 3))).invokePlugin sampleDeps Context.TODO none sampleArgs
      = .error (.wrapErr ErrorResponseParse (.foreign syntaxError)) :=
  (invokePlugin_response_parse_error sampleDeps (clientReturning [] (some (exitError 3)))
    Context.TODO none sampleArgs "DefaultAlgorithm" [] (some (exitError 3)) syntaxError
    (by decide) rfl (Or.inr ⟨exitError 3, 3, rfl, rfl, by decide⟩) (by decide)).1

/-- C4. Plugin-reported error: when the process ran to completion and standard
output decodes to a `PluginResp`, `invokePlugin` returns an error exactly when the
error message of the envelope is non-empty; it then returns no response, whatever
payload the envelope holds, the error wraps `ErrorPluginReturnError`, and its text
is the text of that sentinel, a colon and a blank, and the message as it is. With
an empty message the envelope itself is returned. -/
theorem invokePlugin_plugin_reported_error (d : Deps) (c : PluginClient) (ctx : Context)
    (stdin : Reader) (methodArgs : MethodArgs) (argsEnc : String) (stdout : List Nat)
    (err : Option ForeignError) (resp : PluginResp)
    (hargs : jsonMarshal d ⟨c.initOptions, methodArgs⟩ = .ok argsEnc)
    (hout : (c.makeCommandFunc ctx stdin c.executable [d.ProtocolVersion, argsEnc]).Output
      = (stdout, err))
    (hran : err = none ∨ ∃ e code, err = some e ∧ e.exitCode = some code ∧ 1 ≤ code)
    (hdec : d.unmarshalResp stdout = .ok resp) :
    ((∃ e, c.invokePlugin d ctx stdin methodArgs = .error e) ↔ resp.ErrorMessage ≠ "") ∧
    (resp.ErrorMessage ≠ "" →
      c.invokePlugin d ctx stdin methodArgs
        = .error (.wrapText ErrorPluginReturnError resp.ErrorMessage) ∧
      errorsIs (.wrapText ErrorPluginReturnError resp.ErrorMessage) .ErrorPluginReturnError
        = true ∧
      (GoError.wrapText ErrorPluginReturnError resp.ErrorMessage).Error
        = "plugin returned error" ++ ": " ++ resp.ErrorMessage) ∧
    (resp.ErrorMessage = "" → c.invokePlugin d ctx stdin methodArgs = .ok resp) := by
  rw [invokePlugin_of_output d c ctx stdin methodArgs argsEnc stdout err hargs hout,
    executingPluginError_of_completed err hran]
  by_cases hm : resp.ErrorMessage = ""
  · simp [parseResponse, hdec, hm]
  · refine ⟨?_, ?_, ?_⟩
    · simp [parseResponse, hdec, hm]
    · intro _
      refine ⟨?_, rfl, rfl⟩
      simp [parseResponse, hdec, hm]
    · intro h
      exact absurd h hm

/-- Witness of C4: an envelope that carries an error message next to a signature. -/
theorem invokePlugin_plugin_reported_error_witness :
    (clientReturning stdoutDeclined none).invokePlugin sampleDeps Context.TODO none sampleArgs
      = .error (.wrapText ErrorPluginReturnError respDeclined.ErrorMessage) ∧
    errorsIs (.wrapText ErrorPluginReturnError respDeclined.ErrorMessage)
      .ErrorPluginReturnError = true ∧
    (GoError.wrapText ErrorPluginReturnError respDeclined.ErrorMessage).Error
      = "plugin returned error" ++ ": " ++ respDeclined.ErrorMessage :=
  (invokePlugin_plugin_reported_error sampleDeps (clientReturning stdoutDeclined none)
    Context.TODO none sampleArgs "DefaultAlgorithm" stdoutDeclined none respDeclined
    (by decide) rfl (Or.inl rfl) (by decide)).2.1 (by decide)

/-- Counterexample to C5 as stated: a `CreateKey` request whose deadline lies in the
year 10000 cannot be encoded, `invokePlugin` returns the error of `json.Marshal` as it
is, and that error matches none of the three sentinels. -/
theorem invokePlugin_marshal_error_matches_none :
    (clientReturning stdoutSigned none).invokePlugin sampleDeps Context.TODO none farArgs
      = .error (.foreign marshalerError) ∧
    errorsIs (.foreign marshalerError) .ErrorExecutingPlugin = false ∧
    errorsIs (.foreign marshalerError) .ErrorResponseParse = false ∧
    errorsIs (.foreign marshalerError) .ErrorPluginReturnError = false := by
  decide

/-- C5, amended. Whenever `invokePlugin` returns an error after the request was
encoded, that error matches exactly one of `ErrorExecutingPlugin`,
`ErrorResponseParse` and `ErrorPluginReturnError`. -/
theorem invokePlugin_error_kinds (d : Deps) (c : PluginClient) (ctx : Context)
    (stdin : Reader) (methodArgs : MethodArgs) (argsEnc : String) (e : GoError)
    (hargs : jsonMarshal d ⟨c.initOptions, methodArgs⟩ = .ok argsEnc)
    (herr : c.invokePlugin d ctx stdin methodArgs = .error e) :
    ([Sentinel.ErrorExecutingPlugin, Sentinel.ErrorResponseParse,
      Sentinel.ErrorPluginReturnError].filter (fun s => errorsIs e s)).length = 1 := by
  rw [invokePlugin_of_output d c ctx stdin methodArgs argsEnc _ _ hargs rfl] at herr
  cases hx : executingPluginError
      (c.makeCommandFunc ctx stdin c.executable [d.ProtocolVersion, argsEnc]).Output.2 with
  | none =>
    rw [hx] at herr
    exact parseResponse_error_kind d _ e herr
  | some execErr =>
    rw [hx] at herr
    simp only [Except.error.injEq] at herr
    subst herr
    obtain ⟨fe, hfe⟩ := executingPluginError_shape _ execErr hx
    subst hfe
    rfl

/-- Witness of C5, amended: the three kinds of error on sample clients. -/
theorem invokePlugin_error_kinds_witness :
    ([Sentinel.ErrorExecutingPlugin, Sentinel.ErrorResponseParse,
      Sentinel.ErrorPluginReturnError].filter
        (fun s => errorsIs (.wrapErr ErrorExecutingPlugin (.foreign startError)) s)).length = 1 :=
  invokePlugin_error_kinds sampleDeps (clientReturning [] (some startError)) Context.TODO none
    sampleArgs "DefaultAlgorithm" (.wrapErr ErrorExecutingPlugin (.foreign startError))
    (by decide) (by decide)

/-! ## Lemmas on the option extractors -/

/-- A fold of modifiers that all leave a value alone leaves it alone -/
theorem foldl_of_keeps {α β : Type} (f : β → α → α) (l : List β)
    (h : ∀ o ∈ l, ∀ cur, f o cur = cur) (x : α) :
    l.foldl (fun cur o => f o cur) x = x := by
  induction l generalizing x with
  | nil => rfl
  | cons o rest ih =>
    simp only [List.foldl_cons]
    rw [h o (List.mem_cons_self o rest) x]
    exact ih (fun o2 ho2 => h o2 (List.mem_cons_of_mem o ho2)) x

/-- A fold ends on the value written by the last modifier that writes one -/
theorem foldl_last_write {α β : Type} (f : β → α → α) (pre post : List β) (m : β) (v : α)
    (hm : ∀ cur, f m cur = v) (hpost : ∀ o ∈ post, ∀ cur, f o cur = cur) (x : α) :
    (pre ++ m :: post).foldl (fun cur o => f o cur) x = v := by
  rw [List.foldl_append, List.foldl_cons, hm]
  exact foldl_of_keeps f post hpost v

/-- The loop of `getRPCOptions` folds its three variables independently -/
theorem foldl_rpcStep (opts : List RPCOption) (ctx : Context) (kv : GoString) (rv : Bool) :
    opts.foldl rpcStep (ctx, kv, rv) =
      (opts.foldl (fun cur o => o.ApplyContext cur) ctx,
       opts.foldl (fun cur o => o.ApplyKeyVersion cur) kv,
       opts.foldl (fun cur o => o.ApplyRemoteVerification cur) rv) := by
  induction opts generalizing ctx kv rv with
  | nil => rfl
  | cons o rest ih => simp only [List.foldl_cons, rpcStep, ih]

/-- The loop of `getMessageOptions` folds its two variables independently -/
theorem foldl_messageStep (opts : List MessageOption) (dg : ByteSlice) (so : Option SignerOpts) :
    opts.foldl messageStep (dg, so) =
      (opts.foldl (fun cur o => o.ApplyDigest cur) dg,
       opts.foldl (fun cur o => o.ApplyCryptoSignerOpts cur) so) := by
  induction opts generalizing dg so with
  | nil => rfl
  | cons o rest ih => simp only [List.foldl_cons, messageStep, ih]

/-- What `getRPCOptions` returns, in closed form -/
theorem getRPCOptions_eq (ctx : Context) (opts : List RPCOption) :
    getRPCOptions ctx opts =
      (opts.foldl (fun cur o => o.ApplyContext cur) ctx,
       { CtxDeadline := (opts.foldl (fun cur o => o.ApplyContext cur) ctx).Deadline,
         KeyVersion := some (opts.foldl (fun cur o => o.ApplyKeyVersion cur) ""),
         RemoteVerification :=
           some (opts.foldl (fun cur o => o.ApplyRemoteVerification cur) false) }) := by
  simp only [getRPCOptions, foldl_rpcStep]
  cases (opts.foldl (fun cur o => o.ApplyContext cur) ctx).Deadline <;> rfl

/-- What `getMessageOptions` returns, in closed form -/
theorem getMessageOptions_eq (opts : List MessageOption) :
    getMessageOptions opts =
      { Digest := some (opts.foldl (fun cur o => o.ApplyDigest cur) none),
        HashFunc := (opts.foldl (fun cur o => o.ApplyCryptoSignerOpts cur) none).map
          SignerOpts.HashFunc } := by
  simp only [getMessageOptions, foldl_messageStep]
  cases opts.foldl (fun cur o => o.ApplyCryptoSignerOpts cur) none <;> rfl

/-- An append loop over a slice is a map -/
theorem foldl_append_singleton {α β : Type} (f : α → β) (l : List α) (acc : List β) :
    l.foldl (fun acc x => acc ++ [f x]) acc = acc ++ l.map f := by
  induction l generalizing acc with
  | nil => simp
  | cons x rest ih => simp [ih]

/-- What `getSignOptions` returns, in closed form -/
theorem getSignOptions_eq (ctx : Context) (opts : List SignOption) :
    getSignOptions ctx opts =
      ((getRPCOptions ctx (opts.map SignOption.toRPCOption)).1,
       { RPCOptions := some (getRPCOptions ctx (opts.map SignOption.toRPCOption)).2,
         MessageOptions := some (getMessageOptions (opts.map SignOption.toMessageOption)) }) := by
  simp only [getSignOptions, foldl_append_singleton, List.nil_append]

/-- No modifier both sets the signer options and leaves them alone -/
theorem not_sets_of_keeps (o : MessageOption) (h : KeepsSignerOpts o) :
    ¬ ∃ so, SetsSignerOpts o so := by
  rintro ⟨so, hs⟩
  have h1 := h none
  rw [hs none] at h1
  cases h1

/-- With modifiers that each set the signer options or leave them alone, no signer
options are left in place exactly when they were nil and no modifier set them -/
theorem foldl_signerOpts_eq_none (opts : List MessageOption)
    (h : ∀ o ∈ opts, KeepsSignerOpts o ∨ ∃ so, SetsSignerOpts o so) (cur : Option SignerOpts) :
    opts.foldl (fun cur o => o.ApplyCryptoSignerOpts cur) cur = none ↔
      cur = none ∧ ∀ o ∈ opts, ¬ ∃ so, SetsSignerOpts o so := by
  induction opts generalizing cur with
  | nil => simp
  | cons o rest ih =>
    have hrest : ∀ o2 ∈ rest, KeepsSignerOpts o2 ∨ ∃ so, SetsSignerOpts o2 so :=
      fun o2 ho2 => h o2 (List.mem_cons_of_mem o ho2)
    simp only [List.foldl_cons]
    rw [ih hrest]
    rcases h o (List.mem_cons_self o rest) with hk | ⟨so, hs⟩
    · rw [hk cur]
      constructor
      · rintro ⟨hc, hr⟩
        refine ⟨hc, ?_⟩
        intro o2 ho2
        rcases List.mem_cons.mp ho2 with heq | hmem
        · rw [heq]; exact not_sets_of_keeps o hk
        · exact hr o2 hmem
      · rintro ⟨hc, hr⟩
        exact ⟨hc, fun o2 ho2 => hr o2 (List.mem_cons_of_mem o ho2)⟩
    · rw [hs cur]
      constructor
      · rintro ⟨hc, _⟩
        cases hc
      · rintro ⟨_, hr⟩
        exact absurd ⟨so, hs⟩ (hr o (List.mem_cons_self o rest))

/-! ## Claims on `SignMessage` and on the option extractors -/

/-- C6. SignMessage result: `SignMessage` calls `invokePlugin` once, with the message
as standard input, with method arguments built from `getSignOptions` over
`context.TODO()`, and with that context as the modifiers left it; when `invokePlugin`
returns a response carrying a `signMessage` payload, `SignMessage` returns the
signature bytes of that payload and no error, and when `invokePlugin` fails,
`SignMessage` returns no signature and the same error. -/
theorem SignMessage_result (d : Deps) (c : PluginClient) (message : Reader)
    (opts : List SignOption) (calls : List Invocation) :
    (c.SignMessage d message opts calls).2 =
      calls ++ [⟨(getSignOptions Context.TODO opts).1, message,
        { MethodName := SignMessageMethodName, DefaultAlgorithm := none, CreateKey := none,
          SignMessage := some { SignOptions := some (getSignOptions Context.TODO opts).2 } }⟩] ∧
    (getSignOptions Context.TODO opts).1 =
      opts.foldl (fun cur o => o.ApplyContext cur) Context.TODO ∧
    (∀ resp payload,
      c.invokePlugin d (getSignOptions Context.TODO opts).1 message
        { MethodName := SignMessageMethodName, DefaultAlgorithm := none, CreateKey := none,
          SignMessage := some { SignOptions := some (getSignOptions Context.TODO opts).2 } }
        = .ok resp →
      resp.SignMessage = some payload →
      (c.SignMessage d message opts calls).1 = .ok payload.Signature) ∧
    (∀ err,
      c.invokePlugin d (getSignOptions Context.TODO opts).1 message
        { MethodName := SignMessageMethodName, DefaultAlgorithm := none, CreateKey := none,
          SignMessage := some { SignOptions := some (getSignOptions Context.TODO opts).2 } }
        = .error err →
      (c.SignMessage d message opts calls).1 = .error err) := by
  refine ⟨?_, ?_, ?_, ?_⟩
  · simp only [PluginClient.SignMessage, PluginClient.call]
    generalize PluginClient.invokePlugin d c _ _ _ = r
    cases r with
    | error err => rfl
    | ok resp =>
      dsimp only
      split <;> rfl
  · rw [getSignOptions_eq, getRPCOptions_eq, List.foldl_map]
  · intro resp payload hinv hpay
    simp only [PluginClient.SignMessage, PluginClient.call, hinv, hpay]
  · intro err hinv
    simp only [PluginClient.SignMessage, PluginClient.call, hinv]

/-- Witness of C6: the end-to-end scenario, a plugin that answers with the signature
3, 2, 1 and exits with code 0. -/
theorem SignMessage_result_witness :
    ((clientReturning stdoutSigned none).SignMessage sampleDeps (some [1, 2, 3]) sampleSignOpts
      []).1 = .ok (some [3, 2, 1]) :=
  (SignMessage_result sampleDeps (clientReturning stdoutSigned none) (some [1, 2, 3])
    sampleSignOpts []).2.2.1 respSigned ⟨some [3, 2, 1]⟩ (by decide) rfl

/-- C7. Option folding is last-write-wins: the key version returned by
`getRPCOptions` is the value set by the last modifier of the sequence that sets it,
so of two modifiers that set different values the later one wins; the same holds
for the remote-verification flag. -/
theorem getRPCOptions_last_write_wins (ctx : Context) (pre mid post : List RPCOption)
    (m1 m2 : RPCOption) :
    (∀ v1 v2, SetsKeyVersion m1 v1 → SetsKeyVersion m2 v2 → v1 ≠ v2 →
      (∀ o ∈ post, KeepsKeyVersion o) →
      (getRPCOptions ctx (pre ++ m1 :: (mid ++ m2 :: post))).2.KeyVersion = some v2) ∧
    (∀ v2, SetsKeyVersion m2 v2 → (∀ o ∈ post, KeepsKeyVersion o) →
      (getRPCOptions ctx (pre ++ m2 :: post)).2.KeyVersion = some v2) ∧
    (∀ b1 b2, SetsRemoteVerification m1 b1 → SetsRemoteVerification m2 b2 → b1 ≠ b2 →
      (∀ o ∈ post, KeepsRemoteVerification o) →
      (getRPCOptions ctx (pre ++ m1 :: (mid ++ m2 :: post))).2.RemoteVerification = some b2) ∧
    (∀ b2, SetsRemoteVerification m2 b2 → (∀ o ∈ post, KeepsRemoteVerification o) →
      (getRPCOptions ctx (pre ++ m2 :: post)).2.RemoteVerification = some b2) := by
  refine ⟨?_, ?_, ?_, ?_⟩
  · intro v1 v2 _ h2 _ hpost
    have happ : pre ++ m1 :: (mid ++ m2 :: post) = (pre ++ m1 :: mid) ++ m2 :: post := by simp
    rw [getRPCOptions_eq, happ]
    exact congrArg some
      (foldl_last_write (fun (o : RPCOption) (cur : GoString) => o.ApplyKeyVersion cur) _ post m2 v2 h2 hpost "")
  · intro v2 h2 hpost
    rw [getRPCOptions_eq]
    exact congrArg some
      (foldl_last_write (fun (o : RPCOption) (cur : GoString) => o.ApplyKeyVersion cur) pre post m2 v2 h2 hpost "")
  · intro b1 b2 _ h2 _ hpost
    have happ : pre ++ m1 :: (mid ++ m2 :: post) = (pre ++ m1 :: mid) ++ m2 :: post := by simp
    rw [getRPCOptions_eq, happ]
    exact congrArg some
      (foldl_last_write (fun (o : RPCOption) (cur : Bool) => o.ApplyRemoteVerification cur) _ post m2 b2 h2 hpost false)
  · intro b2 h2 hpost
    rw [getRPCOptions_eq]
    exact congrArg some
      (foldl_last_write (fun (o : RPCOption) (cur : Bool) => o.ApplyRemoteVerification cur) pre post m2 b2 h2 hpost
        false)

/-- Witness of C7: two modifiers set the key versions 1 and 2, the later one wins. -/
theorem getRPCOptions_last_write_wins_witness :
    (getRPCOptions Context.TODO ([] ++ (WithKeyVersion "1").toRPCOption ::
      ([(WithRemoteVerification true).toRPCOption] ++ (WithKeyVersion "2").toRPCOption ::
        [(WithContext ctxWithDeadline).toRPCOption]))).2.KeyVersion = some "2" :=
  (getRPCOptions_last_write_wins Context.TODO [] [(WithRemoteVerification true).toRPCOption]
    [(WithContext ctxWithDeadline).toRPCOption] (WithKeyVersion "1").toRPCOption
    (WithKeyVersion "2").toRPCOption).1 "1" "2" (fun _ => rfl) (fun _ => rfl) (by decide)
    (fun o ho => by
      rw [List.mem_singleton.mp ho]
      exact fun _ => rfl)

/-- Counterexample to C8 as stated: a modifier supplies a context carrying a
deadline and a later one supplies a context without, and the deadline is absent;
and with no modifier at all, a call context carrying a deadline makes it present. -/
theorem getRPCOptions_deadline_not_as_stated :
    SuppliesContext (WithContext ctxWithDeadline).toRPCOption ctxWithDeadline ∧
    ctxWithDeadline.Deadline = some sampleDeadline ∧
    (getRPCOptions Context.TODO [(WithContext ctxWithDeadline).toRPCOption,
      (WithContext ctxPlain).toRPCOption]).2.CtxDeadline = none ∧
    (getRPCOptions ctxWithDeadline []).2.CtxDeadline = some sampleDeadline :=
  ⟨fun _ => rfl, rfl, by decide, by decide⟩

/-- C8, amended. Deadline propagation in `getRPCOptions`: `CtxDeadline` is the
deadline of the context left in place once the modifiers were applied in order.
If the last modifier that supplies a context supplies one carrying a deadline,
`CtxDeadline` is present and equal to that deadline; if no modifier supplies a
context and the call context carries no deadline, `CtxDeadline` is absent. -/
theorem getRPCOptions_deadline (ctx : Context) (opts : List RPCOption) :
    (getRPCOptions ctx opts).1 = opts.foldl (fun cur o => o.ApplyContext cur) ctx ∧
    (getRPCOptions ctx opts).2.CtxDeadline = (getRPCOptions ctx opts).1.Deadline ∧
    (∀ pre m post supplied deadline, opts = pre ++ m :: post → SuppliesContext m supplied →
      (∀ o ∈ post, KeepsContext o) → supplied.Deadline = some deadline →
      (getRPCOptions ctx opts).2.CtxDeadline = some deadline) ∧
    ((∀ o ∈ opts, KeepsContext o) → ctx.Deadline = none →
      (getRPCOptions ctx opts).2.CtxDeadline = none) := by
  refine ⟨?_, ?_, ?_, ?_⟩
  · rw [getRPCOptions_eq]
  · rw [getRPCOptions_eq]
  · intro pre m post supplied deadline hopts hm hpost hdl
    rw [getRPCOptions_eq, hopts]
    show ((pre ++ m :: post).foldl (fun cur o => o.ApplyContext cur) ctx).Deadline = some deadline
    rw [foldl_last_write (fun (o : RPCOption) (cur : Context) => o.ApplyContext cur) pre post m supplied hm hpost ctx]
    exact hdl
  · intro hkeep hnone
    rw [getRPCOptions_eq]
    show (opts.foldl (fun cur o => o.ApplyContext cur) ctx).Deadline = none
    rw [foldl_of_keeps (fun (o : RPCOption) (cur : Context) => o.ApplyContext cur) opts hkeep ctx]
    exact hnone

/-- Witness of C8, amended: the last supplied context carries the sample deadline. -/
theorem getRPCOptions_deadline_witness :
    (getRPCOptions Context.TODO [(WithContext ctxPlain).toRPCOption,
      (WithContext ctxWithDeadline).toRPCOption,
      (WithKeyVersion "1").toRPCOption]).2.CtxDeadline = some sampleDeadline :=
  (getRPCOptions_deadline Context.TODO [(WithContext ctxPlain).toRPCOption,
      (WithContext ctxWithDeadline).toRPCOption, (WithKeyVersion "1").toRPCOption]).2.2.1
    [(WithContext ctxPlain).toRPCOption] (WithContext ctxWithDeadline).toRPCOption
    [(WithKeyVersion "1").toRPCOption] ctxWithDeadline sampleDeadline rfl (fun _ => rfl)
    (fun o ho => by
      rw [List.mem_singleton.mp ho]
      exact fun _ => rfl)
    rfl

/-- Counterexample to C9 as stated: for the empty modifier sequence the key
version, the remote-verification flag and the digest are present, holding the
empty string, false and the nil slice, not absent. -/
theorem extractors_zero_values_present :
    (getRPCOptions Context.TODO []).2.KeyVersion = some "" ∧
    (getRPCOptions Context.TODO []).2.RemoteVerification = some false ∧
    (getMessageOptions []).Digest = some none ∧
    (getRPCOptions Context.TODO []).2.KeyVersion ≠ none ∧
    (getRPCOptions Context.TODO []).2.RemoteVerification ≠ none ∧
    (getMessageOptions []).Digest ≠ none := by
  decide

/-- C9, amended. The extractors always return a record. For every modifier
sequence the key version, the remote-verification flag and the digest are present,
and hold the empty string, false and the nil slice when no modifier set them; the
deadline is absent when no modifier supplied a context and the call context has no
deadline, and the hash function is absent when no modifier set the signer options.
For the empty sequence this gives the records written out below. -/
theorem extractors_unset_fields (ctx : Context) (opts : List RPCOption)
    (mopts : List MessageOption) :
    (getRPCOptions ctx opts).2.KeyVersion.isSome = true ∧
    (getRPCOptions ctx opts).2.RemoteVerification.isSome = true ∧
    (getMessageOptions mopts).Digest.isSome = true ∧
    (ctx.Deadline = none → (getRPCOptions ctx []).2 =
      { CtxDeadline := none, KeyVersion := some "", RemoteVerification := some false }) ∧
    getMessageOptions [] = { Digest := some none, HashFunc := none } ∧
    ((∀ o ∈ opts, KeepsContext o) → ctx.Deadline = none →
      (getRPCOptions ctx opts).2.CtxDeadline = none) ∧
    ((∀ o ∈ opts, KeepsKeyVersion o) → (getRPCOptions ctx opts).2.KeyVersion = some "") ∧
    ((∀ o ∈ opts, KeepsRemoteVerification o) →
      (getRPCOptions ctx opts).2.RemoteVerification = some false) ∧
    ((∀ o ∈ mopts, KeepsDigest o) → (getMessageOptions mopts).Digest = some none) ∧
    ((∀ o ∈ mopts, KeepsSignerOpts o) → (getMessageOptions mopts).HashFunc = none) := by
  refine ⟨?_, ?_, ?_, ?_, ?_, ?_, ?_, ?_, ?_, ?_⟩
  · rw [getRPCOptions_eq]; rfl
  · rw [getRPCOptions_eq]; rfl
  · rw [getMessageOptions_eq]; rfl
  · intro hnone
    rw [getRPCOptions_eq]
    simp only [List.foldl_nil, hnone]
  · rfl
  · intro hkeep hnone
    rw [getRPCOptions_eq]
    show (opts.foldl (fun cur o => o.ApplyContext cur) ctx).Deadline = none
    rw [foldl_of_keeps (fun (o : RPCOption) (cur : Context) => o.ApplyContext cur) opts hkeep ctx]
    exact hnone
  · intro hkeep
    rw [getRPCOptions_eq]
    exact congrArg some (foldl_of_keeps (fun (o : RPCOption) (cur : GoString) => o.ApplyKeyVersion cur) opts hkeep "")
  · intro hkeep
    rw [getRPCOptions_eq]
    exact congrArg some
      (foldl_of_keeps (fun (o : RPCOption) (cur : Bool) => o.ApplyRemoteVerification cur) opts hkeep false)
  · intro hkeep
    rw [getMessageOptions_eq]
    exact congrArg some (foldl_of_keeps (fun (o : MessageOption) (cur : ByteSlice) => o.ApplyDigest cur) mopts hkeep none)
  · intro hkeep
    rw [getMessageOptions_eq]
    show (mopts.foldl (fun cur o => o.ApplyCryptoSignerOpts cur) none).map
      SignerOpts.HashFunc = none
    rw [foldl_of_keeps (fun (o : MessageOption) (cur : Option SignerOpts) => o.ApplyCryptoSignerOpts cur) mopts hkeep none]
    rfl

/-- Witness of C9, amended: a sequence that sets only the digest leaves the hash
function absent and the key version at the empty string. -/
theorem extractors_unset_fields_witness :
    (getRPCOptions Context.TODO []).2 =
      { CtxDeadline := none, KeyVersion := some "", RemoteVerification := some false } ∧
    (getMessageOptions [(WithDigest [9, 8, 7]).toMessageOption]).HashFunc = none :=
  ⟨(extractors_unset_fields Context.TODO [] [(WithDigest [9, 8, 7]).toMessageOption]).2.2.2.1 rfl,
   (extractors_unset_fields Context.TODO [] [(WithDigest [9, 8, 7]).toMessageOption]).2.2.2.2.2.2.2.2.2
    (fun o ho => by
      rw [List.mem_singleton.mp ho]
      exact fun _ => rfl)⟩

/-- C10. Hash-function presence in `getMessageOptions`: the hash function of the
returned record is that of the signer options left in place once the modifiers were
applied in order, so it is present and equal to the hash of the handle set last; and,
the modifiers each setting a signer-options handle or leaving it alone, it is absent
exactly when no modifier of the sequence set one. -/
theorem getMessageOptions_hashFunc (opts : List MessageOption) :
    (getMessageOptions opts).HashFunc =
      (opts.foldl (fun cur o => o.ApplyCryptoSignerOpts cur) none).map SignerOpts.HashFunc ∧
    (∀ pre m post so, opts = pre ++ m :: post → SetsSignerOpts m so →
      (∀ o ∈ post, KeepsSignerOpts o) →
      (getMessageOptions opts).HashFunc = some so.HashFunc) ∧
    ((∀ o ∈ opts, KeepsSignerOpts o ∨ ∃ so, SetsSignerOpts o so) →
      ((getMessageOptions opts).HashFunc = none ↔
        ∀ o ∈ opts, ¬ ∃ so, SetsSignerOpts o so)) := by
  refine ⟨?_, ?_, ?_⟩
  · rw [getMessageOptions_eq]
  · intro pre m post so hopts hm hpost
    rw [getMessageOptions_eq, hopts]
    show ((pre ++ m :: post).foldl
      (fun (cur : Option SignerOpts) (o : MessageOption) => o.ApplyCryptoSignerOpts cur)
      none).map SignerOpts.HashFunc = some so.HashFunc
    rw [foldl_last_write (fun (o : MessageOption) (cur : Option SignerOpts) =>
      o.ApplyCryptoSignerOpts cur) pre post m (some so) hm hpost none]
    rfl
  · intro h
    rw [getMessageOptions_eq]
    show (opts.foldl (fun cur o => o.ApplyCryptoSignerOpts cur) none).map
      SignerOpts.HashFunc = none ↔ _
    rw [Option.map_eq_none', foldl_signerOpts_eq_none opts h none]
    simp

/-- Witness of C10: the modifiers of the end-to-end scenario set signer options
naming the hash 17, and the hash function is present and equal to 17. -/
theorem getMessageOptions_hashFunc_witness :
    (getMessageOptions (sampleSignOpts.map SignOption.toMessageOption)).HashFunc = some 17 ∧
    ((getMessageOptions (sampleSignOpts.map SignOption.toMessageOption)).HashFunc = none ↔
      ∀ o ∈ sampleSignOpts.map SignOption.toMessageOption, ¬ ∃ so, SetsSignerOpts o so) :=
  ⟨(getMessageOptions_hashFunc (sampleSignOpts.map SignOption.toMessageOption)).2.1
      [(WithDigest [9, 8, 7]).toMessageOption]
      (WithCryptoSignerOpts sampleSignerOpts).toMessageOption
      [(WithContext ctxWithDeadline).toMessageOption] sampleSignerOpts rfl (fun _ => rfl)
      (fun o ho => by
        rw [List.mem_singleton.mp ho]
        exact fun _ => rfl),
   (getMessageOptions_hashFunc (sampleSignOpts.map SignOption.toMessageOption)).2.2
    (fun o ho => by
      simp only [sampleSignOpts, List.map_cons, List.map_nil, List.mem_cons,
        List.mem_singleton, List.not_mem_nil, or_false] at ho
      rcases ho with h | h | h
      · rw [h]; exact Or.inl (fun _ => rfl)
      · rw [h]; exact Or.inr ⟨sampleSignerOpts, fun _ => rfl⟩
      · rw [h]; exact Or.inl (fun _ => rfl))⟩
/-! ## Lemmas on the JSON form of the option records -/

/-- A time is lossless when it has a JSON form that reads back as the time itself -/
theorem Time.lossless_iff (t : Time) :
    t.lossless = true ↔ t.hasJSON = true ∧ t.written = t := by
  simp [Time.lossless]

/-- A string is valid UTF-8 when the coercion leaves it as it is -/
theorem GoString.validUTF8_iff (v : GoString) : v.validUTF8 = true ↔ v.toValidUTF8 = v := by
  simp [GoString.validUTF8]

/-- A lossless `RPCOptions` is written as an object whose members read back as the
record -/
theorem marshalRPCOptions_members (r : RPCOptions) (h : r.lossless = true) :
    ∃ members, marshalRPCOptions r = .ok (.obj members) ∧
      unmarshalMembers setRPCMember RPCOptions.zero members = .ok r := by
  rcases r with ⟨dl, kv, rv⟩
  simp only [RPCOptions.lossless, Bool.and_eq_true] at h
  obtain ⟨hdl, hkv⟩ := h
  cases dl with
  | none =>
    cases kv with
    | none =>
      cases rv <;>
        simp [marshalRPCOptions, rpcMembers, unmarshalMembers, setRPCMember, RPCOptions.zero]
    | some v =>
      have hv := (GoString.validUTF8_iff v).mp hkv
      cases rv <;>
        simp [marshalRPCOptions, rpcMembers, unmarshalMembers, setRPCMember, RPCOptions.zero,
          hv]
  | some t =>
    obtain ⟨hj, hw⟩ := (Time.lossless_iff t).mp hdl
    cases kv with
    | none =>
      cases rv <;>
        simp [marshalRPCOptions, rpcMembers, unmarshalMembers, setRPCMember, RPCOptions.zero,
          hj, hw]
    | some v =>
      have hv := (GoString.validUTF8_iff v).mp hkv
      cases rv <;>
        simp [marshalRPCOptions, rpcMembers, unmarshalMembers, setRPCMember, RPCOptions.zero,
          hj, hw, hv]

/-- A lossless `MessageOptions` is written as an object whose members read back as
the record -/
theorem marshalMessageOptions_members (m : MessageOptions) (h : m.lossless = true) :
    ∃ members, marshalMessageOptions m = .ok (.obj members) ∧
      unmarshalMembers setMessageMember MessageOptions.zero members = .ok m := by
  rcases m with ⟨dg, hf⟩
  simp only [MessageOptions.lossless, Bool.and_eq_true] at h
  obtain ⟨hdg, hhf⟩ := h
  rcases dg with _ | _ | bs
  · cases hf with
    | none =>
      simp [marshalMessageOptions, unmarshalMembers, setMessageMember, MessageOptions.zero]
    | some hash =>
      have hlt : hash < 18446744073709551616 := by simpa using hhf
      simp [marshalMessageOptions, unmarshalMembers, setMessageMember, MessageOptions.zero, hlt]
  · simp at hdg
  · cases hf with
    | none =>
      simp [marshalMessageOptions, unmarshalMembers, setMessageMember, MessageOptions.zero]
    | some hash =>
      have hlt : hash < 18446744073709551616 := by simpa using hhf
      simp [marshalMessageOptions, unmarshalMembers, setMessageMember, MessageOptions.zero, hlt]

/-- The round trip of a lossless `RPCOptions` -/
theorem roundTripRPCOptions_ok (r : RPCOptions) (h : r.lossless = true) :
    roundTripRPCOptions r = .ok r := by
  obtain ⟨members, hm, hu⟩ := marshalRPCOptions_members r h
  simp only [roundTripRPCOptions, hm, unmarshalRPCOptions, unmarshalRPCOptionsInto, hu]

/-- The round trip of a lossless `MessageOptions` -/
theorem roundTripMessageOptions_ok (m : MessageOptions) (h : m.lossless = true) :
    roundTripMessageOptions m = .ok m := by
  obtain ⟨members, hm, hu⟩ := marshalMessageOptions_members m h
  simp only [roundTripMessageOptions, hm, unmarshalMessageOptions, unmarshalMessageOptionsInto,
    hu]

/-- The round trip of a `SignOptions` whose nested records are lossless -/
theorem roundTripSignOptions_ok (s : SignOptions) (h : s.lossless = true) :
    roundTripSignOptions s = .ok s := by
  rcases s with ⟨rpc, msg⟩
  simp only [SignOptions.lossless, Bool.and_eq_true] at h
  obtain ⟨hr, hm⟩ := h
  cases rpc with
  | none =>
    cases msg with
    | none =>
      simp [roundTripSignOptions, marshalSignOptions, unmarshalSignOptions, unmarshalMembers,
        setSignMember, SignOptions.zero]
    | some m =>
      obtain ⟨mm, hmm, hmu⟩ := marshalMessageOptions_members m hm
      simp [roundTripSignOptions, marshalSignOptions, unmarshalSignOptions, unmarshalMembers,
        setSignMember, SignOptions.zero, hmm, hmu, unmarshalMessageOptionsInto]
  | some r =>
    obtain ⟨rm, hrm, hru⟩ := marshalRPCOptions_members r hr
    cases msg with
    | none =>
      simp [roundTripSignOptions, marshalSignOptions, unmarshalSignOptions, unmarshalMembers,
        setSignMember, SignOptions.zero, hrm, hru, unmarshalRPCOptionsInto]
    | some m =>
      obtain ⟨mm, hmm, hmu⟩ := marshalMessageOptions_members m hm
      simp [roundTripSignOptions, marshalSignOptions, unmarshalSignOptions, unmarshalMembers,
        setSignMember, SignOptions.zero, hrm, hru, unmarshalRPCOptionsInto, hmm, hmu,
        unmarshalMessageOptionsInto]

/-- The record of `getRPCOptions` is lossless when the deadline of the context left
in place, if any, is, and the key version left by the modifiers is valid UTF-8 -/
theorem getRPCOptions_lossless (ctx : Context) (opts : List RPCOption)
    (hdl : ∀ t, (getRPCOptions ctx opts).1.Deadline = some t → t.lossless = true)
    (hkv : (opts.foldl (fun (cur : GoString) (o : RPCOption) => o.ApplyKeyVersion cur)
      "").validUTF8 = true) :
    (getRPCOptions ctx opts).2.lossless = true := by
  rw [getRPCOptions_eq] at hdl ⊢
  simp only [RPCOptions.lossless, Bool.and_eq_true]
  refine ⟨?_, hkv⟩
  split
  · next t ht => exact hdl t ht
  · rfl

/-- The record of `getMessageOptions` is lossless when the modifiers leave a digest
other than nil and signer options whose hash fits 64 bits -/
theorem getMessageOptions_lossless (opts : List MessageOption) (bs : List Nat)
    (hdg : opts.foldl (fun (cur : ByteSlice) (o : MessageOption) => o.ApplyDigest cur) none
      = some bs)
    (hhf : ∀ so, opts.foldl
      (fun (cur : Option SignerOpts) (o : MessageOption) => o.ApplyCryptoSignerOpts cur) none
        = some so → so.HashFunc < 2 ^ 64) :
    (getMessageOptions opts).lossless = true := by
  rw [getMessageOptions_eq]
  simp only [MessageOptions.lossless, hdg, Bool.true_and]
  cases hso : opts.foldl
      (fun (cur : Option SignerOpts) (o : MessageOption) => o.ApplyCryptoSignerOpts cur) none with
  | none => rfl
  | some so => simpa using hhf so hso


/-- An accepted response without `defaultAlgorithm` payload makes `DefaultAlgorithm`
dereference a nil pointer -/
theorem DefaultAlgorithm_nilDeref (d : Deps) (c : PluginClient) (calls : List Invocation)
    (resp : PluginResp)
    (hinv : c.invokePlugin d Context.TODO none
      { MethodName := DefaultAlgorithmMethodName, DefaultAlgorithm := some {},
        CreateKey := none, SignMessage := none } = .ok resp)
    (hnil : resp.DefaultAlgorithm = none) :
    (c.DefaultAlgorithm d calls).1 = .nilDeref := by
  simp only [PluginClient.DefaultAlgorithm, PluginClient.call, hinv, hnil]

/-- An accepted response without `signMessage` payload makes `SignMessage`
dereference a nil pointer -/
theorem SignMessage_nilDeref (d : Deps) (c : PluginClient) (message : Reader)
    (opts : List SignOption) (calls : List Invocation) (resp : PluginResp)
    (hinv : c.invokePlugin d (getSignOptions Context.TODO opts).1 message
      { MethodName := SignMessageMethodName, DefaultAlgorithm := none, CreateKey := none,
        SignMessage := some { SignOptions := some (getSignOptions Context.TODO opts).2 } }
      = .ok resp)
    (hnil : resp.SignMessage = none) :
    (c.SignMessage d message opts calls).1 = .nilDeref := by
  simp only [PluginClient.SignMessage, PluginClient.call, hinv, hnil]

/-- An accepted response without `createKey` payload makes `CreateKey` dereference
a nil pointer -/
theorem CreateKey_nilDeref (d : Deps) (c : PluginClient) (ctx : Context) (algorithm : String)
    (calls : List Invocation) (resp : PluginResp)
    (hinv : c.invokePlugin d ctx none
      { MethodName := CreateKeyMethodName, DefaultAlgorithm := none,
        CreateKey := some { CtxDeadline := ctx.Deadline, Algorithm := algorithm },
        SignMessage := none } = .ok resp)
    (hnil : resp.CreateKey = none) :
    (c.CreateKey d ctx algorithm calls).1 = .nilDeref := by
  cases hd : ctx.Deadline <;>
    simp only [PluginClient.CreateKey, PluginClient.call, hd] at hinv ⊢ <;>
    simp only [hinv, hnil]

/-! ## Claims on the wire records and on the operations -/

/-- Counterexample to C11 as stated: an `RPCOptions` whose deadline lies in the year
10000, or in a zone 24 hours from UTC, cannot be encoded; one whose deadline lies in
a zone one hour and one second from UTC comes back one second off; a key version
that is not valid UTF-8 comes back with U+FFFD in it; and a `MessageOptions` whose
digest pointer holds the nil slice, such as `getMessageOptions` returns for the empty
modifier sequence, comes back with the digest absent. -/
theorem option_records_round_trip_fails :
    roundTripRPCOptions
      { CtxDeadline := some farDeadline, KeyVersion := none, RemoteVerification := none }
      = .error marshalerError ∧
    roundTripRPCOptions
      { CtxDeadline := some farZoneDeadline, KeyVersion := none, RemoteVerification := none }
      = .error zoneMarshalerError ∧
    roundTripRPCOptions
      { CtxDeadline := some oddZoneDeadline, KeyVersion := none, RemoteVerification := none }
      = .ok { CtxDeadline := some { oddZoneDeadline with zoneOffset := 3600 },
              KeyVersion := none, RemoteVerification := none } ∧
    roundTripRPCOptions
      { CtxDeadline := none, KeyVersion := some oddKeyVersion, RemoteVerification := none }
      = .ok { CtxDeadline := none, KeyVersion := some ⟨[0x61, 0xEF, 0xBF, 0xBD, 0x62]⟩,
              RemoteVerification := none } ∧
    (getMessageOptions []).Digest = some none ∧
    roundTripMessageOptions (getMessageOptions []) = .ok MessageOptions.zero ∧
    roundTripMessageOptions (getMessageOptions []) ≠ .ok (getMessageOptions []) ∧
    roundTripSignOptions (getSignOptions Context.TODO []).2
      ≠ .ok (getSignOptions Context.TODO []).2 := by
  decide

/-- C11, amended. JSON round trip of the option records: for every `RPCOptions`
whose deadline, if present, has a year within 0 to 9999 and a zone offset of whole
minutes below 24 hours and whose key version, if present, is valid UTF-8, every
`MessageOptions` whose digest, if present, is not the nil slice (its hash being a
64-bit number), and every `SignOptions` made of such records, decoding the JSON
encoding succeeds and yields the original value, an absent field staying absent and
a present zero value staying present. This holds for the records of
`getRPCOptions`, `getMessageOptions` and `getSignOptions` that meet these
conditions: the deadline of the context left in place and the key version, digest
and signer options left by the modifiers are such. -/
theorem option_records_round_trip :
    (∀ r : RPCOptions, r.lossless = true → roundTripRPCOptions r = .ok r) ∧
    (∀ m : MessageOptions, m.lossless = true → roundTripMessageOptions m = .ok m) ∧
    (∀ s : SignOptions, s.lossless = true → roundTripSignOptions s = .ok s) ∧
    (∀ (ctx : Context) (opts : List RPCOption),
      (∀ t, (getRPCOptions ctx opts).1.Deadline = some t → t.lossless = true) →
      (opts.foldl (fun (cur : GoString) (o : RPCOption) => o.ApplyKeyVersion cur)
        "").validUTF8 = true →
      roundTripRPCOptions (getRPCOptions ctx opts).2 = .ok (getRPCOptions ctx opts).2) ∧
    (∀ (opts : List MessageOption) (bs : List Nat),
      opts.foldl (fun (cur : ByteSlice) (o : MessageOption) => o.ApplyDigest cur) none
        = some bs →
      (∀ so, opts.foldl
        (fun (cur : Option SignerOpts) (o : MessageOption) => o.ApplyCryptoSignerOpts cur) none
          = some so → so.HashFunc < 2 ^ 64) →
      roundTripMessageOptions (getMessageOptions opts) = .ok (getMessageOptions opts)) ∧
    (∀ (ctx : Context) (opts : List SignOption),
      (getSignOptions ctx opts).2.lossless = true →
      roundTripSignOptions (getSignOptions ctx opts).2 = .ok (getSignOptions ctx opts).2) := by
  refine ⟨roundTripRPCOptions_ok, roundTripMessageOptions_ok, roundTripSignOptions_ok,
    ?_, ?_, ?_⟩
  · intro ctx opts hdl hkv
    exact roundTripRPCOptions_ok _ (getRPCOptions_lossless ctx opts hdl hkv)
  · intro opts bs hdg hhf
    exact roundTripMessageOptions_ok _ (getMessageOptions_lossless opts bs hdg hhf)
  · intro ctx opts h
    exact roundTripSignOptions_ok _ h

/-- Witness of C11, amended: the three values of options_test.go, records with
present zero values, a deadline in a zone five and a half hours west of UTC, and
the record `getSignOptions` returns in the end-to-end scenario. -/
theorem option_records_round_trip_witness :
    roundTripRPCOptions testRPCOptions = .ok testRPCOptions ∧
    roundTripMessageOptions testMessageOptions = .ok testMessageOptions ∧
    roundTripSignOptions testSignOptions = .ok testSignOptions ∧
    roundTripRPCOptions
      { CtxDeadline := none, KeyVersion := some "", RemoteVerification := some false }
      = .ok { CtxDeadline := none, KeyVersion := some "", RemoteVerification := some false } ∧
    roundTripRPCOptions
      { CtxDeadline := some { year := 2025, zoneOffset := -19800, rest := 4010247 },
        KeyVersion := none, RemoteVerification := none }
      = .ok { CtxDeadline := some { year := 2025, zoneOffset := -19800, rest := 4010247 },
              KeyVersion := none, RemoteVerification := none } ∧
    roundTripMessageOptions { Digest := some (some []), HashFunc := none }
      = .ok { Digest := some (some []), HashFunc := none } ∧
    roundTripRPCOptions (getRPCOptions Context.TODO
        (sampleSignOpts.map SignOption.toRPCOption)).2
      = .ok (getRPCOptions Context.TODO (sampleSignOpts.map SignOption.toRPCOption)).2 ∧
    roundTripMessageOptions (getMessageOptions (sampleSignOpts.map SignOption.toMessageOption))
      = .ok (getMessageOptions (sampleSignOpts.map SignOption.toMessageOption)) ∧
    roundTripSignOptions (getSignOptions Context.TODO sampleSignOpts).2
      = .ok (getSignOptions Context.TODO sampleSignOpts).2 :=
  ⟨option_records_round_trip.1 testRPCOptions (by decide),
   option_records_round_trip.2.1 testMessageOptions (by decide),
   option_records_round_trip.2.2.1 testSignOptions (by decide),
   option_records_round_trip.1 _ (by decide),
   option_records_round_trip.1 _ (by decide),
   option_records_round_trip.2.1 _ (by decide),
   option_records_round_trip.2.2.2.1 Context.TODO (sampleSignOpts.map SignOption.toRPCOption)
     (by decide) (by decide),
   option_records_round_trip.2.2.2.2.1 (sampleSignOpts.map SignOption.toMessageOption)
     [9, 8, 7] (by decide) (by decide),
   option_records_round_trip.2.2.2.2.2 Context.TODO sampleSignOpts (by decide)⟩

/-- C12. Tagged-union invariant on requests: `DefaultAlgorithm`, `CreateKey` and
`SignMessage` each hand `invokePlugin` method arguments in which exactly one payload
is populated, the one named by `MethodName`; the payload of `CreateKey` carries the
given algorithm, and its deadline is the deadline of the context of the caller,
present exactly when that context has one. -/
theorem requests_tagged_union (d : Deps) (c : PluginClient) (ctx : Context)
    (algorithm : String) (message : Reader) (opts : List SignOption)
    (calls : List Invocation) :
    ((c.DefaultAlgorithm d calls).2 = calls ++ [⟨Context.TODO, none,
        { MethodName := DefaultAlgorithmMethodName, DefaultAlgorithm := some {},
          CreateKey := none, SignMessage := none }⟩] ∧
      MethodArgs.populated
        { MethodName := DefaultAlgorithmMethodName, DefaultAlgorithm := some {},
          CreateKey := none, SignMessage := none } = [DefaultAlgorithmMethodName]) ∧
    ((c.CreateKey d ctx algorithm calls).2 = calls ++ [⟨ctx, none,
        { MethodName := CreateKeyMethodName, DefaultAlgorithm := none,
          CreateKey := some { CtxDeadline := ctx.Deadline, Algorithm := algorithm },
          SignMessage := none }⟩] ∧
      MethodArgs.populated
        { MethodName := CreateKeyMethodName, DefaultAlgorithm := none,
          CreateKey := some { CtxDeadline := ctx.Deadline, Algorithm := algorithm },
          SignMessage := none } = [CreateKeyMethodName]) ∧
    ((c.SignMessage d message opts calls).2 = calls ++ [⟨(getSignOptions Context.TODO opts).1,
        message,
        { MethodName := SignMessageMethodName, DefaultAlgorithm := none, CreateKey := none,
          SignMessage := some { SignOptions := some (getSignOptions Context.TODO opts).2 } }⟩] ∧
      MethodArgs.populated
        { MethodName := SignMessageMethodName, DefaultAlgorithm := none, CreateKey := none,
          SignMessage := some { SignOptions := some (getSignOptions Context.TODO opts).2 } }
        = [SignMessageMethodName]) := by
  refine ⟨⟨?_, rfl⟩, ⟨?_, rfl⟩, ⟨?_, rfl⟩⟩
  · simp only [PluginClient.DefaultAlgorithm, PluginClient.call]
    generalize PluginClient.invokePlugin d c _ _ _ = r
    cases r with
    | error err => rfl
    | ok resp =>
      dsimp only
      split <;> rfl
  · cases hd : ctx.Deadline <;>
      simp only [PluginClient.CreateKey, PluginClient.call, hd] <;>
      generalize PluginClient.invokePlugin d c _ _ _ = r <;>
      cases r with
      | error err => rfl
      | ok resp =>
        dsimp only
        split
        · rfl
        · split <;> rfl
  · simp only [PluginClient.SignMessage, PluginClient.call]
    generalize PluginClient.invokePlugin d c _ _ _ = r
    cases r with
    | error err => rfl
    | ok resp =>
      dsimp only
      split <;> rfl

/-- C13. Absent-payload safety does not hold of the code: on the accepted envelope
without payload, written by a plugin that exits with code 0, `DefaultAlgorithm`,
`CreateKey` and `SignMessage` each dereference a nil payload pointer, and so does
`DefaultAlgorithm` on an accepted envelope that carries a `signMessage` payload. -/
theorem operations_dereference_nil_payload :
    (clientReturning stdoutEmpty none).invokePlugin sampleDeps Context.TODO none sampleArgs
      = .ok respEmpty ∧
    ((clientReturning stdoutEmpty none).DefaultAlgorithm sampleDeps []).1 = .nilDeref ∧
    ((clientReturning stdoutEmpty none).CreateKey sampleDeps Context.TODO
      "ecdsa-sha2-256-nistp256" []).1 = .nilDeref ∧
    ((clientReturning stdoutEmpty none).SignMessage sampleDeps (some [1, 2, 3]) [] []).1
      = .nilDeref ∧
    ((clientReturning stdoutSigned none).DefaultAlgorithm sampleDeps []).1 = .nilDeref := by
  decide


end Cliplugin
